import Mathlib

/-!
The request handler of `main.go` of the satellite gateway.

A shallow embedding of `handler` (main.go, lines 60-141) together with the
library calls it makes.  The handler is a pure function from the libraries'
answers, the current cache and the request to the written response, the new
cache and the list of library calls it performed.

Go `string` values are Lean `String`s, Go `int` values are `Int`s (the handler
does no arithmetic on them), Go `error` values are the text that `%v` prints.
-/

namespace Satellite

/-! ## Constants (main.go, lines 18-21) -/

/-- Constant `MaxCacheSize` of main.go. -/
def MaxCacheSize : Nat := 1000

/-- Constant `MaxSatteliteSize` of main.go (128 * 1024). -/
def MaxSatteliteSize : Int := 128 * 1024

/-- Constant `http.StatusOK`. -/
def StatusOK : Int := 200

/-- Constant `http.StatusBadRequest`. -/
def StatusBadRequest : Int := 400

/-! ## net/http headers -/

/-- Type `http.Header`, a `map[string][]string`, kept as an association list
in which the first entry of a key is the one the map holds. -/
abbrev Header := List (String × List String)

/-- Map read `h[key]`: the values stored under the exact key, `[]` when the key is absent. -/
def Header.index : Header → String → List String
  | [], _ => []
  | (k, vs) :: rest, key => if k = key then vs else Header.index rest key

/-- Map write `h[key] = vs`: replaces the values of an existing key in place,
adds the key when it is new. -/
def Header.set : Header → String → List String → Header
  | [], key, vs => [(key, vs)]
  | (k, old) :: rest, key, vs =>
    if k = key then (k, vs) :: rest else (k, old) :: Header.set rest key vs

/-- Method `Header.Values`: the values under the canonical form of `key`. -/
def Header.values (canon : String → String) (h : Header) (key : String) : List String :=
  Header.index h (canon key)

/-- Method `Header.Get`: the first value under the canonical form of `key`, `""` when there is none. -/
def Header.get (canon : String → String) (h : Header) (key : String) : String :=
  match Header.index h (canon key) with
  | [] => ""
  | v :: _ => v

/-- Method `Header.Add`: appends `value` to the values under the canonical form of `key`. -/
def Header.add (canon : String → String) (h : Header) (key value : String) : Header :=
  Header.set h (canon key) (Header.index h (canon key) ++ [value])

/-- Function `http.StatusText`, as a table: the codes net/http knows and their texts. -/
def statusTable : List (Int × String) :=
  [(100, "Continue"), (101, "Switching Protocols"), (102, "Processing"), (103, "Early Hints"),
   (200, "OK"), (201, "Created"), (202, "Accepted"), (203, "Non-Authoritative Information"),
   (204, "No Content"), (205, "Reset Content"), (206, "Partial Content"), (207, "Multi-Status"),
   (208, "Already Reported"), (226, "IM Used"),
   (300, "Multiple Choices"), (301, "Moved Permanently"), (302, "Found"), (303, "See Other"),
   (304, "Not Modified"), (305, "Use Proxy"), (307, "Temporary Redirect"),
   (308, "Permanent Redirect"),
   (400, "Bad Request"), (401, "Unauthorized"), (402, "Payment Required"), (403, "Forbidden"),
   (404, "Not Found"), (405, "Method Not Allowed"), (406, "Not Acceptable"),
   (407, "Proxy Authentication Required"), (408, "Request Timeout"), (409, "Conflict"),
   (410, "Gone"), (411, "Length Required"), (412, "Precondition Failed"),
   (413, "Request Entity Too Large"), (414, "Request URI Too Long"),
   (415, "Unsupported Media Type"), (416, "Requested Range Not Satisfiable"),
   (417, "Expectation Failed"), (418, "I\x27m a teapot"), (421, "Misdirected Request"),
   (422, "Unprocessable Entity"), (423, "Locked"), (424, "Failed Dependency"),
   (425, "Too Early"), (426, "Upgrade Required"), (428, "Precondition Required"),
   (429, "Too Many Requests"), (431, "Request Header Fields Too Large"),
   (451, "Unavailable For Legal Reasons"),
   (500, "Internal Server Error"), (501, "Not Implemented"), (502, "Bad Gateway"),
   (503, "Service Unavailable"), (504, "Gateway Timeout"), (505, "HTTP Version Not Supported"),
   (506, "Variant Also Negotiates"), (507, "Insufficient Storage"), (508, "Loop Detected"),
   (510, "Not Extended"), (511, "Network Authentication Required")]

/-- Lookup in the status table, `""` for a code that is not in it. -/
def statusLookup : List (Int × String) → Int → String
  | [], _ => ""
  | (c, t) :: rest, code => if c = code then t else statusLookup rest code

/-- Function `http.StatusText`: the text of a known status code, `""` otherwise. -/
def statusText (code : Int) : String := statusLookup statusTable code

/-! ## The response writer -/

/-- Interface `http.ResponseWriter` as the `http.Server` of main.go (lines 40-45)
implements it, kept as the record of the response: the header map, the
informational status lines already sent, the status of the response once it
is fixed, and the body bytes accepted so far. -/
structure ResponseWriter where
  header : Header
  interim : List Int
  status : Option Int
  body : String
deriving DecidableEq

/-- A writer as the server hands it to the handler: given headers, nothing written. -/
def ResponseWriter.fresh (h : Header) : ResponseWriter := ⟨h, [], none, ""⟩

/-- Function `bodyAllowedForStatus` of net/http: no body for 1xx, 204 and 304. -/
def bodyAllowedForStatus (status : Int) : Bool :=
  if 100 ≤ status ∧ status ≤ 199 then false
  else if status = 204 then false
  else if status = 304 then false
  else true

/-- Method `WriteHeader` of the server's writer.  Once the status is fixed a
further call changes nothing.  A code from 100 to 199 other than 101 is sent as
an informational status line and leaves the status of the response open; every
other code fixes it. -/
def ResponseWriter.writeHeader (w : ResponseWriter) (code : Int) : ResponseWriter :=
  match w.status with
  | some _ => w
  | none =>
    if 100 ≤ code ∧ code ≤ 199 ∧ code ≠ 101 then { w with interim := w.interim ++ [code] }
    else { w with status := some code }

/-- Method `Write` of the server's writer (also behind `fmt.Fprintf`): while the
status is open it first fixes it with `WriteHeader(200)`; the bytes are then
appended when the status allows a body and refused (`ErrBodyNotAllowed`, which
the handler does not look at) when it does not. -/
def ResponseWriter.write (w : ResponseWriter) (s : String) : ResponseWriter :=
  let w1 := w.writeHeader StatusOK
  match w1.status with
  | some st => if bodyAllowedForStatus st then { w1 with body := w1.body ++ s } else w1
  | none => w1

/-- The two calls every error path of the handler makes:
`w.WriteHeader(http.StatusBadRequest)` and `fmt.Fprintf(w, msg)`. -/
def badRequest (w : ResponseWriter) (msg : String) : ResponseWriter :=
  (w.writeHeader StatusBadRequest).write msg

/-- Lines 134-138 of main.go, the inner loop: every value of one key is added in order. -/
def addValues (canon : String → String) (h : Header) (k : String) : List String → Header
  | [] => h
  | vv :: rest => addValues canon (Header.add canon h k vv) k rest

/-- Lines 134-138 of main.go, the outer loop over the decoded header map; the
order of the list is the order in which the map is iterated. -/
def mergeHeader (canon : String → String) (h : Header) : Header → Header
  | [] => h
  | (k, v) :: rest => mergeHeader canon (addValues canon h k v) rest

/-! ## Requests, results and the cache -/

/-- Type `url.URL`, the fields the handler copies into the environment of a run. -/
structure URL where
  scheme : String
  opaque_ : String
  host : String
  path : String
  rawQuery : String
  fragment : String
deriving DecidableEq

/-- Type `http.Request`, the fields the handler reads. -/
structure Request where
  method : String
  header : Header
  url : URL

/-- Struct `SatelliteEnv` of main.go (lines 48-52). -/
structure SatelliteEnv where
  method : String
  header : Header
  url : URL
deriving DecidableEq

/-- Struct `SatelliteResult` of main.go (lines 54-58). -/
structure SatelliteResult where
  statusCode : Int
  header : Header
  body : String
deriving DecidableEq

deriving instance DecidableEq for Except

/-- Type `http.Response`, what the handler reads of the fetch response:
the status code, the headers, and what `io.ReadAll(satRes.Body)` returns. -/
structure FetchResponse where
  statusCode : Int
  header : Header
  body : Except String String
deriving DecidableEq

/-- The libraries the handler calls, with `P` the type of a compiled program
(`*vm.Program`) and `R` that of a raw result (`any`). -/
structure Lib (P R : Type) where
  /-- Function `textproto.CanonicalMIMEHeaderKey`. -/
  canon : String → String
  /-- Function `http.Get`. -/
  httpGet : String → Except String FetchResponse
  /-- Function `strconv.Atoi`. -/
  atoi : String → Except String Int
  /-- Function `expr.Compile` with the options of line 99. -/
  compile : String → Except String P
  /-- Function `expr.Run`. -/
  run : P → SatelliteEnv → Except String R
  /-- Function `mapstructure.Decode` into a zero `SatelliteResult`. -/
  decode : R → Except String SatelliteResult

/-- The cache `lru.Cache[string, *vm.Program]` of golang-lru: its entries, most
recently used first. -/
abbrev Cache (P : Type) := List (String × P)

/-- The item stored under a key, if any. -/
def Cache.peek {P : Type} : Cache P → String → Option P
  | [], _ => none
  | (k, v) :: rest, key => if k = key then some v else Cache.peek rest key

/-- The entries without the entry of a key. -/
def Cache.remove {P : Type} : Cache P → String → Cache P
  | [], _ => []
  | (k, v) :: rest, key => if k = key then rest else (k, v) :: Cache.remove rest key

/-- Method `Get` of the LRU cache: a hit moves the entry to the front. -/
def Cache.get {P : Type} (c : Cache P) (key : String) : Option P × Cache P :=
  match Cache.peek c key with
  | some v => (some v, (key, v) :: Cache.remove c key)
  | none => (none, c)

/-- Method `Add` of the LRU cache of capacity `size`: an existing key is
updated and moved to the front; a new key is pushed to the front and, when the
list is then longer than `size`, the oldest entry (the last) is removed. -/
def Cache.add {P : Type} (size : Nat) (c : Cache P) (key : String) (v : P) : Cache P :=
  match Cache.peek c key with
  | some _ => (key, v) :: Cache.remove c key
  | none => if size < ((key, v) :: c).length then ((key, v) :: c).dropLast else (key, v) :: c

/-! ## The handler -/

/-- A library call of the handler, in the order of main.go. -/
inductive Event (P R : Type) where
  | cacheGet (loc : String)
  | httpGet (loc : String)
  | readBody (loc : String)
  | compile (src : String)
  | cacheAdd (loc : String) (prog : P)
  | run (prog : P) (env : SatelliteEnv)
  | decode (raw : R)
deriving DecidableEq

/-- Whether the call is `http.Get`. -/
def Event.isFetch {P R : Type} : Event P R → Bool
  | .httpGet _ => true
  | _ => false

/-- Whether the call is `io.ReadAll` of the response body. -/
def Event.isReadBody {P R : Type} : Event P R → Bool
  | .readBody _ => true
  | _ => false

/-- Whether the call is `expr.Compile`. -/
def Event.isCompile {P R : Type} : Event P R → Bool
  | .compile _ => true
  | _ => false

/-- Whether the call is `cache.Add`. -/
def Event.isCacheAdd {P R : Type} : Event P R → Bool
  | .cacheAdd _ _ => true
  | _ => false

/-- What one call of the handler leaves behind: the response written, the
cache, and the library calls made. -/
structure Outcome (P R : Type) where
  w : ResponseWriter
  cache : Cache P
  trace : List (Event P R)

/-- The environment a run of the program sees (lines 108-112). -/
def envOf (r : Request) : SatelliteEnv :=
  { method := r.method, header := r.header, url := r.url }

/-- Lines 108-140 of main.go: run the program, decode the result, check the
status code, write the response. -/
def runSatellite {P R : Type} (L : Lib P R) (w : ResponseWriter) (r : Request)
    (cache : Cache P) (tr : List (Event P R)) (satellite : P) : Outcome P R :=
  let env : SatelliteEnv := envOf r
  let tr := tr ++ [Event.run satellite env]
  match L.run satellite env with
  | .error err => ⟨badRequest w ("error running satellite: " ++ err), cache, tr⟩
  | .ok rawOut =>
    let tr := tr ++ [Event.decode rawOut]
    match L.decode rawOut with
    | .error err => ⟨badRequest w ("error decoding satellite result: " ++ err), cache, tr⟩
    | .ok out =>
      let statusCode := if out.statusCode = 0 then StatusOK else out.statusCode
      if statusText statusCode = "" then
        ⟨badRequest w ("error in satellite result: invalid status code: " ++ toString statusCode),
          cache, tr⟩
      else
        let w1 : ResponseWriter := { w with header := mergeHeader L.canon w.header out.header }
        ⟨(w1.writeHeader statusCode).write out.body, cache, tr⟩

/-- Function `handler` of main.go (lines 60-141). -/
def handler {P R : Type} (L : Lib P R) (cache : Cache P) (w : ResponseWriter) (r : Request) :
    Outcome P R :=
  let satLocation := Header.get L.canon r.header "X-Satellite-Location"
  if satLocation = "" then
    ⟨badRequest w "no X-Satellite-Location header found", cache, []⟩
  else
    match Cache.get cache satLocation with
    | (some satellite, cache1) =>
      runSatellite L w r cache1 [Event.cacheGet satLocation] satellite
    | (none, cache1) =>
      let tr : List (Event P R) := [Event.cacheGet satLocation, Event.httpGet satLocation]
      match L.httpGet satLocation with
      | .error err => ⟨badRequest w ("error fetching satellite: " ++ err), cache1, tr⟩
      | .ok satRes =>
        match L.atoi (Header.get L.canon satRes.header "Content-Length") with
        | .error err =>
          ⟨badRequest w ("error reading satellite size (Content-Length header): " ++ err),
            cache1, tr⟩
        | .ok satSize =>
          if MaxSatteliteSize < satSize then
            ⟨badRequest w ("satellite too large: max " ++ toString MaxSatteliteSize ++ ", got "
              ++ toString satSize), cache1, tr⟩
          else
            let tr := tr ++ [Event.readBody satLocation]
            match satRes.body with
            | .error err => ⟨badRequest w ("error reading satellite: " ++ err), cache1, tr⟩
            | .ok satCode =>
              if satRes.statusCode ≠ StatusOK then
                ⟨badRequest w ("http error " ++ toString satRes.statusCode
                  ++ " fetching satellite: " ++ satCode), cache1, tr⟩
              else
                let tr := tr ++ [Event.compile satCode]
                match L.compile satCode with
                | .error err => ⟨badRequest w ("error compiling satellite: " ++ err), cache1, tr⟩
                | .ok satellite =>
                  runSatellite L w r (Cache.add MaxCacheSize cache1 satLocation satellite)
                    (tr ++ [Event.cacheAdd satLocation satellite]) satellite

/-- One request as the server passes it to the handler, with the answers the
libraries give during that call. -/
structure Call (P R : Type) where
  lib : Lib P R
  w : ResponseWriter
  r : Request

/-- Consecutive calls of the handler: each starts from the cache the previous one left. -/
def serve {P R : Type} : Cache P → List (Call P R) → List (Outcome P R)
  | _, [] => []
  | cache, c :: rest =>
    let o := handler c.lib cache c.w c.r
    o :: serve o.cache rest

/-- The library calls of consecutive calls of the handler, in order. -/
def allEvents {P R : Type} : List (Outcome P R) → List (Event P R)
  | [] => []
  | o :: rest => o.trace ++ allEvents rest

/-- The location a call asks for: what `r.Header.Get("X-Satellite-Location")` returns. -/
def Call.loc {P R : Type} (c : Call P R) : String :=
  Header.get c.lib.canon c.r.header "X-Satellite-Location"

/-- The cache after consecutive calls of the handler. -/
def serveCache {P R : Type} : Cache P → List (Call P R) → Cache P
  | cache, [] => cache
  | cache, c :: rest => serveCache (handler c.lib cache c.w c.r).cache rest

/-! ## Conditions on a call, in the words of the specification -/

/-- The request carries no usable location: the header is absent, or its first value is empty. -/
def NoLocation (canon : String → String) (r : Request) : Prop :=
  Header.values canon r.header "X-Satellite-Location" = [] ∨
    ∃ rest, Header.values canon r.header "X-Satellite-Location" = "" :: rest

/-- The request names the location `loc`, which is not empty. -/
def HasLocation (canon : String → String) (r : Request) (loc : String) : Prop :=
  Header.get canon r.header "X-Satellite-Location" = loc ∧ loc ≠ ""

/-- Fetching `loc` succeeds with the source text `src`: no network error, a
Content-Length that parses to at most the ceiling, a body read without error,
status 200. -/
def FetchOk {P R : Type} (L : Lib P R) (loc src : String) : Prop :=
  ∃ resp n, L.httpGet loc = .ok resp ∧
    L.atoi (Header.get L.canon resp.header "Content-Length") = .ok n ∧
    n ≤ MaxSatteliteSize ∧ resp.body = .ok src ∧ resp.statusCode = StatusOK

/-- Fetching `loc` and compiling what was fetched succeed and give the program `p`. -/
def Loads {P R : Type} (L : Lib P R) (loc : String) (p : P) : Prop :=
  ∃ src, FetchOk L loc src ∧ L.compile src = .ok p

/-- The handler gets the program `p` for `loc`: from the cache, or on a miss by
fetching and compiling. -/
def Obtains {P R : Type} (L : Lib P R) (cache : Cache P) (loc : String) (p : P) : Prop :=
  Cache.peek cache loc = some p ∨ (Cache.peek cache loc = none ∧ Loads L loc p)

/-- The program `p` runs on the request and its result decodes to `out`. -/
def Produces {P R : Type} (L : Lib P R) (p : P) (r : Request) (out : SatelliteResult) : Prop :=
  ∃ raw, L.run p (envOf r) = .ok raw ∧ L.decode raw = .ok out

/-- The guarantee of the net/http transport behind `http.Get` on a response it
returns: when the Content-Length header parses to n, reading the body gives at
most n bytes, as the transport cuts the body at the declared length. -/
def CutsBody {P R : Type} (L : Lib P R) : Prop :=
  ∀ loc resp n src, L.httpGet loc = .ok resp →
    L.atoi (Header.get L.canon resp.header "Content-Length") = .ok n →
    resp.body = .ok src → (src.utf8ByteSize : Int) ≤ n

/-- The library calls of lines 108-119 for the program `p`: the run, and the
decoding of its result when the run gives one. -/
def runTrace {P R : Type} (L : Lib P R) (r : Request) (p : P) : List (Event P R) :=
  match L.run p (envOf r) with
  | .error _ => [Event.run p (envOf r)]
  | .ok raw => [Event.run p (envOf r), Event.decode raw]

/-- The response `resp` to the request `r`, written to `w`, is the answer from a
run of the program `p`: an error of `L.run p` on the environment of the request
is reported with status 400; so is an error of decoding its result and a
decoded status code without status text; and otherwise the decoded headers are
merged, the decoded status code (200 for zero) goes to `WriteHeader` and the
decoded body to `Write`. -/
def AnswersFromRun {P R : Type} (L : Lib P R) (w : ResponseWriter) (r : Request) (p : P)
    (resp : ResponseWriter) : Prop :=
  (∀ err, L.run p (envOf r) = .error err →
    resp = badRequest w ("error running satellite: " ++ err)) ∧
  (∀ raw err, L.run p (envOf r) = .ok raw → L.decode raw = .error err →
    resp = badRequest w ("error decoding satellite result: " ++ err)) ∧
  (∀ raw out, L.run p (envOf r) = .ok raw → L.decode raw = .ok out →
    out.statusCode ≠ 0 → statusText out.statusCode = "" →
    resp = badRequest w
      ("error in satellite result: invalid status code: " ++ toString out.statusCode)) ∧
  (∀ raw out, L.run p (envOf r) = .ok raw → L.decode raw = .ok out →
    (out.statusCode = 0 ∨ statusText out.statusCode ≠ "") →
    resp = (ResponseWriter.writeHeader
      { w with header := mergeHeader L.canon w.header out.header }
      (if out.statusCode = 0 then 200 else out.statusCode)).write out.body)

/-- The ways a call of the handler can fail, in the order of main.go. -/
inductive Failure where
  | missingLocation
  | fetchError
  | badContentLength
  | tooLarge
  | bodyReadError
  | upstreamStatus
  | compileError
  | runError
  | decodeError
  | invalidStatus
deriving DecidableEq

/-- A call fails in the given way.  The fetch and compile failures are those of
a call that misses the cache: a hit neither fetches nor compiles. -/
def Fails {P R : Type} (L : Lib P R) (cache : Cache P) (r : Request) : Failure → Prop
  | .missingLocation => NoLocation L.canon r
  | .fetchError => ∃ loc err, HasLocation L.canon r loc ∧ Cache.peek cache loc = none ∧
      L.httpGet loc = .error err
  | .badContentLength => ∃ loc resp err, HasLocation L.canon r loc ∧
      Cache.peek cache loc = none ∧ L.httpGet loc = .ok resp ∧
      L.atoi (Header.get L.canon resp.header "Content-Length") = .error err
  | .tooLarge => ∃ loc resp n, HasLocation L.canon r loc ∧
      Cache.peek cache loc = none ∧ L.httpGet loc = .ok resp ∧
      L.atoi (Header.get L.canon resp.header "Content-Length") = .ok n ∧ MaxSatteliteSize < n
  | .bodyReadError => ∃ loc resp n err, HasLocation L.canon r loc ∧
      Cache.peek cache loc = none ∧ L.httpGet loc = .ok resp ∧
      L.atoi (Header.get L.canon resp.header "Content-Length") = .ok n ∧
      n ≤ MaxSatteliteSize ∧ resp.body = .error err
  | .upstreamStatus => ∃ loc resp n src, HasLocation L.canon r loc ∧
      Cache.peek cache loc = none ∧ L.httpGet loc = .ok resp ∧
      L.atoi (Header.get L.canon resp.header "Content-Length") = .ok n ∧
      n ≤ MaxSatteliteSize ∧ resp.body = .ok src ∧ resp.statusCode ≠ StatusOK
  | .compileError => ∃ loc src err, HasLocation L.canon r loc ∧
      Cache.peek cache loc = none ∧ FetchOk L loc src ∧ L.compile src = .error err
  | .runError => ∃ loc p err, HasLocation L.canon r loc ∧ Obtains L cache loc p ∧
      L.run p (envOf r) = .error err
  | .decodeError => ∃ loc p raw err, HasLocation L.canon r loc ∧ Obtains L cache loc p ∧
      L.run p (envOf r) = .ok raw ∧ L.decode raw = .error err
  | .invalidStatus => ∃ loc p out, HasLocation L.canon r loc ∧ Obtains L cache loc p ∧
      Produces L p r out ∧ out.statusCode ≠ 0 ∧ statusText out.statusCode = ""

/-- A call succeeds: it gets a program, the program runs, the result decodes
and its status code is zero or a standard one. -/
def Succeeds {P R : Type} (L : Lib P R) (cache : Cache P) (r : Request) : Prop :=
  ∃ loc p out, HasLocation L.canon r loc ∧ Obtains L cache loc p ∧ Produces L p r out ∧
    (out.statusCode = 0 ∨ statusText out.statusCode ≠ "")

/-! ## A concrete set of libraries, for examples -/

/-- Whether a character may occur in a header name. -/
def exTokenChar (c : Char) : Bool :=
  c.isAlphanum || "!#$%&\x27*+-.^_\x60|~".toList.contains c

/-- Upper case at the start and after each dash, lower case elsewhere. -/
def exCanonChars : Bool → List Char → List Char
  | _, [] => []
  | up, c :: cs => (if up then c.toUpper else c.toLower) :: exCanonChars (c == '-') cs

/-- Canonical form of a header name; a name with a character that may not occur is left alone. -/
def exCanon (s : String) : String :=
  if s.toList.all exTokenChar then String.mk (exCanonChars true s.toList) else s

/-- Decimal integer with an optional sign, within 64 bits. -/
def exAtoi (s : String) : Except String Int :=
  let cs := s.toList
  let ds := match cs with
    | '-' :: t => t
    | '+' :: t => t
    | _ => cs
  if ds.isEmpty || !ds.all Char.isDigit then
    .error ("strconv.Atoi: parsing " ++ s.quote ++ ": invalid syntax")
  else
    let n : Int := (ds.foldl (fun a c => 10 * a + (c.toNat - 48)) 0 : Nat)
    let v : Int := if cs.head? = some '-' then -n else n
    if v < -9223372036854775808 ∨ 9223372036854775807 < v then
      .error ("strconv.Atoi: parsing " ++ s.quote ++ ": value out of range")
    else .ok v

/-- A source text of 131073 bytes. -/
def exOversized : String := String.mk (List.replicate 131073 'a')

/-- A value the scripts of the examples put under a key of their result. -/
inductive ExField where
  | int (n : Int)
  | str (s : String)
  | headers (h : Header)
  | bool (b : Bool)
deriving DecidableEq

/-- The raw result of a script of the examples: a map from keys to values. -/
abbrev ExRaw := List (String × ExField)

/-- Lower case of a key. -/
def exLower (s : String) : String := String.mk (s.toList.map Char.toLower)

/-- The value the decoder takes for a field of `SatelliteResult`: that of the
key equal to the field name, else that of a key equal to it up to case; other
keys are ignored. -/
def exFind (raw : ExRaw) (field : String) : Option ExField :=
  match raw.find? (fun e => e.1 = field) with
  | some e => some e.2
  | none =>
    match raw.find? (fun e => exLower e.1 = exLower field) with
    | some e => some e.2
    | none => none

/-- Decoding of a raw result in the examples, field by field; an absent field
keeps its zero value. -/
def exDecode (raw : ExRaw) : Except String SatelliteResult :=
  match exFind raw "StatusCode", exFind raw "Header", exFind raw "Body" with
  | some (.int n), some (.headers h), some (.str b) => .ok ⟨n, h, b⟩
  | some (.int n), some (.headers h), none => .ok ⟨n, h, ""⟩
  | some (.int n), none, some (.str b) => .ok ⟨n, [], b⟩
  | some (.int n), none, none => .ok ⟨n, [], ""⟩
  | none, some (.headers h), some (.str b) => .ok ⟨0, h, b⟩
  | none, some (.headers h), none => .ok ⟨0, h, ""⟩
  | none, none, some (.str b) => .ok ⟨0, [], b⟩
  | none, none, none => .ok ⟨0, [], ""⟩
  | _, _, _ => .error "1 error(s) decoding: unconvertible type"

/-- Script of the examples with status 201, a header and the body "ok". -/
def exCreatedSrc : String :=
  "\x7bStatusCode: 201, Header: \x7b\x22x-trace\x22: [\x22a\x22, \x22b\x22]\x7d, Body: \x22ok\x22\x7d"

/-- Script of the examples with only a body. -/
def exPlainSrc : String := "\x7bBody: \x22hello\x22\x7d"

/-- Script of the examples with the status 999. -/
def exOddSrc : String :=
  "\x7bStatusCode: 999, Header: \x7b\x22X-Trace\x22: [\x22a\x22]\x7d, Body: \x22never sent\x22\x7d"

/-- Script of the examples with the status 103. -/
def exEarlySrc : String := "\x7bStatusCode: 103, Body: \x22early\x22\x7d"

/-- Script of the examples with the status 204 and a body. -/
def exNoContentSrc : String := "\x7bStatusCode: 204, Body: \x22ok\x22\x7d"

/-- Script of the examples with the keys `status` and `body`. -/
def exLiteralSrc : String := "\x7bstatus: 201, body: \x22ok\x22\x7d"

/-- What the first script evaluates to. -/
def exCreatedRaw : ExRaw :=
  [("StatusCode", .int 201), ("Header", .headers [("x-trace", ["a", "b"])]), ("Body", .str "ok")]

/-- What the plain script evaluates to. -/
def exPlainRaw : ExRaw := [("Body", .str "hello")]

/-- What the script with the status 999 evaluates to. -/
def exOddRaw : ExRaw :=
  [("StatusCode", .int 999), ("Header", .headers [("X-Trace", ["a"])]), ("Body", .str "never sent")]

/-- What the script with the status 103 evaluates to. -/
def exEarlyRaw : ExRaw := [("StatusCode", .int 103), ("Body", .str "early")]

/-- What the script with the status 204 evaluates to. -/
def exNoContentRaw : ExRaw := [("StatusCode", .int 204), ("Body", .str "ok")]

/-- What the script with the keys `status` and `body` evaluates to. -/
def exLiteralRaw : ExRaw := [("status", .int 201), ("body", .str "ok")]

/-- The decoded result of the first script. -/
def exCreated : SatelliteResult := ⟨201, [("x-trace", ["a", "b"])], "ok"⟩

/-- The decoded result of the plain script. -/
def exPlain : SatelliteResult := ⟨0, [], "hello"⟩

/-- The decoded result of the script with the status 999. -/
def exOdd : SatelliteResult := ⟨999, [("X-Trace", ["a"])], "never sent"⟩

/-- The scripts served in the examples, by location. -/
def exSource (loc : String) : Option String :=
  if loc = "http://sat/created" then some exCreatedSrc
  else if loc = "http://sat/plain" then some exPlainSrc
  else if loc = "http://sat/odd-status" then some exOddSrc
  else if loc = "http://sat/early" then some exEarlySrc
  else if loc = "http://sat/no-content" then some exNoContentSrc
  else if loc = "http://sat/literal" then some exLiteralSrc
  else if loc = "http://sat/syntax" then some "\x7bBody: "
  else none

/-- Answers of the network in the examples; the declared length is the length
of the body. -/
def exGet (loc : String) : Except String FetchResponse :=
  if loc = "http://sat/big" then
    .ok ⟨200, [("Content-Length", ["131073"])], .ok exOversized⟩
  else
    match exSource loc with
    | some src => .ok ⟨200, [("Content-Length", [toString src.utf8ByteSize])], .ok src⟩
    | none => .error "dial tcp: lookup failed: no such host"

/-- Programs of the examples: a compiled program is the raw result it evaluates to. -/
def exCompile (src : String) : Except String ExRaw :=
  if src = exCreatedSrc then .ok exCreatedRaw
  else if src = exPlainSrc then .ok exPlainRaw
  else if src = exOddSrc then .ok exOddRaw
  else if src = exEarlySrc then .ok exEarlyRaw
  else if src = exNoContentSrc then .ok exNoContentRaw
  else if src = exLiteralSrc then .ok exLiteralRaw
  else .error "unexpected token"

/-- The libraries of the examples. -/
def exLib : Lib ExRaw ExRaw where
  canon := exCanon
  httpGet := exGet
  atoi := exAtoi
  compile := exCompile
  run := fun p _ => .ok p
  decode := exDecode

/-- Libraries that serve the plain script at every location. -/
def exUniformLib : Lib ExRaw ExRaw where
  canon := exCanon
  httpGet := fun _ => .ok ⟨200, [("Content-Length", ["15"])], .ok exPlainSrc⟩
  atoi := exAtoi
  compile := exCompile
  run := fun p _ => .ok p
  decode := exDecode

/-- A GET request of the examples with the given location header. -/
def exRequest (loc : String) : Request :=
  { method := "GET",
    header := [("Accept", ["*/*"]), ("X-Satellite-Location", [loc])],
    url := ⟨"", "", "", "/", "", ""⟩ }

/-- A request of the examples without the location header. -/
def exBareRequest : Request :=
  { method := "GET", header := [("Accept", ["*/*"])], url := ⟨"", "", "", "/", "", ""⟩ }

/-- The n-th of a family of pairwise distinct locations. -/
def exLoc (n : Nat) : String := String.mk ("http://sat/".toList ++ List.replicate n 'a')

/-- A call for the n-th location, with libraries that serve the plain script. -/
def exCall (n : Nat) : Call ExRaw ExRaw :=
  ⟨exUniformLib, ResponseWriter.fresh [], exRequest (exLoc n)⟩

/-- Calls for the locations 1 to 1000. -/
def exLater : List (Call ExRaw ExRaw) :=
  (List.range 1000).map (fun n => exCall (n + 1))

/-- The values the decoded headers `dec` add under the map key `key`, in the
order in which the handler iterates over them. -/
def addedValues (canon : String → String) : Header → String → List String
  | [], _ => []
  | (k, vs) :: rest, key => (if canon k = key then vs else []) ++ addedValues canon rest key

/-! ## Basic facts -/

theorem get_eq_empty_of_noLocation {canon : String → String} {r : Request}
    (h : NoLocation canon r) : Header.get canon r.header "X-Satellite-Location" = "" := by
  unfold Header.get
  unfold NoLocation Header.values at h
  rcases h with h | ⟨rest, h⟩ <;> simp [h]

theorem handler_noLocation {P R : Type} (L : Lib P R) (cache : Cache P) (w : ResponseWriter)
    (r : Request) (h : Header.get L.canon r.header "X-Satellite-Location" = "") :
    handler L cache w r = ⟨badRequest w "no X-Satellite-Location header found", cache, []⟩ := by
  simp [handler, h]

theorem handler_hit {P R : Type} (L : Lib P R) (cache : Cache P) (w : ResponseWriter)
    (r : Request) {loc : String} {p : P} (h : HasLocation L.canon r loc)
    (hp : Cache.peek cache loc = some p) :
    handler L cache w r =
      runSatellite L w r ((loc, p) :: Cache.remove cache loc) [Event.cacheGet loc] p := by
  obtain ⟨h1, h2⟩ := h
  simp [handler, h1, h2, Cache.get, hp]

theorem handler_loads {P R : Type} (L : Lib P R) (cache : Cache P) (w : ResponseWriter)
    (r : Request) {loc src : String} {p : P} (h : HasLocation L.canon r loc)
    (hp : Cache.peek cache loc = none) (hf : FetchOk L loc src) (hc : L.compile src = .ok p) :
    handler L cache w r =
      runSatellite L w r (Cache.add MaxCacheSize cache loc p)
        [Event.cacheGet loc, Event.httpGet loc, Event.readBody loc, Event.compile src,
          Event.cacheAdd loc p] p := by
  obtain ⟨h1, h2⟩ := h
  obtain ⟨resp, n, hg, ha, hn, hb, hs⟩ := hf
  simp [handler, h1, h2, Cache.get, hp, hg, ha, not_lt.mpr hn, hb, hs, hc]

theorem append_ne_empty (a b : String) (h : a ≠ "") : a ++ b ≠ "" := by
  intro hab
  apply h
  have h1 : (a ++ b).data = [] := by rw [hab]
  rw [String.data_append] at h1
  have h2 : a.data = [] := (List.append_eq_nil.mp h1).1
  exact String.ext h2

theorem empty_append (s : String) : "" ++ s = s := by
  apply String.ext
  rw [String.data_append]
  rfl

theorem badRequest_fresh (hdr : Header) (msg : String) :
    badRequest (ResponseWriter.fresh hdr) msg = ⟨hdr, [], some 400, msg⟩ := by
  have h : badRequest (ResponseWriter.fresh hdr) msg = ⟨hdr, [], some 400, "" ++ msg⟩ := rfl
  rw [h, empty_append]

theorem runSatellite_cache {P R : Type} (L : Lib P R) (w : ResponseWriter) (r : Request)
    (cache : Cache P) (tr : List (Event P R)) (p : P) :
    (runSatellite L w r cache tr p).cache = cache := by
  cases h1 : L.run p (envOf r) with
  | error err => simp [runSatellite, h1]
  | ok raw =>
    cases h2 : L.decode raw with
    | error err => simp [runSatellite, h1, h2]
    | ok out =>
      simp only [runSatellite, h1, h2]
      split_ifs <;> rfl

theorem runSatellite_trace {P R : Type} (L : Lib P R) (w : ResponseWriter) (r : Request)
    (cache : Cache P) (tr : List (Event P R)) (p : P) :
    (runSatellite L w r cache tr p).trace = tr ++ [Event.run p (envOf r)] ∨
      ∃ raw, (runSatellite L w r cache tr p).trace =
        tr ++ [Event.run p (envOf r), Event.decode raw] := by
  cases h1 : L.run p (envOf r) with
  | error err => left; simp [runSatellite, h1]
  | ok raw =>
    right
    refine ⟨raw, ?_⟩
    cases h2 : L.decode raw with
    | error err => simp [runSatellite, h1, h2]
    | ok out =>
      simp only [runSatellite, h1, h2]
      split_ifs <;> simp

theorem runSatellite_produces {P R : Type} (L : Lib P R) (w : ResponseWriter) (r : Request)
    (cache : Cache P) (tr : List (Event P R)) (p : P) {out : SatelliteResult}
    (h : Produces L p r out) :
    (runSatellite L w r cache tr p).w =
      if statusText (if out.statusCode = 0 then StatusOK else out.statusCode) = "" then
        badRequest w ("error in satellite result: invalid status code: " ++
          toString (if out.statusCode = 0 then StatusOK else out.statusCode))
      else
        (ResponseWriter.writeHeader { w with header := mergeHeader L.canon w.header out.header }
          (if out.statusCode = 0 then StatusOK else out.statusCode)).write out.body := by
  obtain ⟨raw, h1, h2⟩ := h
  simp only [runSatellite, h1, h2]
  split_ifs <;> rfl

/-- The response the handler writes when it gets the program `p`. -/
theorem handler_obtains {P R : Type} (L : Lib P R) (cache : Cache P) (w : ResponseWriter)
    (r : Request) {loc : String} {p : P} (h : HasLocation L.canon r loc)
    (hp : Obtains L cache loc p) :
    ∃ cache1 tr, handler L cache w r = runSatellite L w r cache1 tr p := by
  rcases hp with hp | ⟨hp, src, hf, hc⟩
  · exact ⟨_, _, handler_hit L cache w r h hp⟩
  · exact ⟨_, _, handler_loads L cache w r h hp hf hc⟩

theorem statusText_ok : statusText StatusOK ≠ "" := by decide

theorem statusLookup_ne_empty {tbl : List (Int × String)} {code : Int}
    (h : statusLookup tbl code ≠ "") : ∃ e ∈ tbl, e.1 = code := by
  induction tbl with
  | nil => exact absurd rfl h
  | cons e rest ih =>
    obtain ⟨c, t⟩ := e
    by_cases hc : c = code
    · exact ⟨(c, t), List.mem_cons_self _ _, hc⟩
    · simp only [statusLookup, hc, if_false] at h
      obtain ⟨e, he, hcode⟩ := ih h
      exact ⟨e, List.mem_cons_of_mem _ he, hcode⟩

/-- Every code with a status text is between 100 and 511. -/
theorem statusText_range {code : Int} (h : statusText code ≠ "") : 100 ≤ code ∧ code ≤ 511 := by
  obtain ⟨e, he, hcode⟩ := statusLookup_ne_empty h
  have hall : ∀ e ∈ statusTable, 100 ≤ e.1 ∧ e.1 ≤ 511 := by decide
  rw [← hcode]
  exact hall e he

theorem writeHeader_header (w : ResponseWriter) (code : Int) :
    (w.writeHeader code).header = w.header := by
  unfold ResponseWriter.writeHeader
  split
  · rfl
  · split <;> rfl

theorem write_header (w : ResponseWriter) (s : String) : (w.write s).header = w.header := by
  unfold ResponseWriter.write
  simp only
  split
  · split
    · exact writeHeader_header w StatusOK
    · exact writeHeader_header w StatusOK
  · exact writeHeader_header w StatusOK

/-- A code with a status text that lies between 100 and 199 is 100, 101, 102 or 103. -/
theorem statusText_informational {code : Int} (h : statusText code ≠ "")
    (h1 : 100 ≤ code) (h2 : code ≤ 199) : code = 100 ∨ code = 101 ∨ code = 102 ∨ code = 103 := by
  obtain ⟨e, he, hcode⟩ := statusLookup_ne_empty h
  have hall : ∀ e ∈ statusTable, 100 ≤ e.1 → e.1 ≤ 199 →
      e.1 = 100 ∨ e.1 = 101 ∨ e.1 = 102 ∨ e.1 = 103 := by decide
  rw [← hcode] at h1 h2 ⊢
  exact hall e he h1 h2

/-- The response after `WriteHeader(code)` and `Write(body)` on a fresh writer,
for a code with a status text: 100, 102 and 103 go out as informational status
lines and the response is a 200 with the body; 101, 204 and 304 are the status
of the response and the body is refused; every other code is the status of the
response and the body is accepted. -/
theorem respond_fresh (h : Header) (code : Int) (body : String) (hv : statusText code ≠ "") :
    (ResponseWriter.writeHeader ⟨h, [], none, ""⟩ code).write body =
      if code = 100 ∨ code = 102 ∨ code = 103 then ⟨h, [code], some 200, body⟩
      else if code = 101 ∨ code = 204 ∨ code = 304 then ⟨h, [], some code, ""⟩
      else ⟨h, [], some code, body⟩ := by
  have hb : ∀ (l : List Int) (c : Int), bodyAllowedForStatus c = true →
      (⟨h, l, some c, "" ++ body⟩ : ResponseWriter) = ⟨h, l, some c, body⟩ := by
    intro l c _
    rw [empty_append]
  by_cases hi : code = 100 ∨ code = 102 ∨ code = 103
  · rw [if_pos hi]
    rcases hi with rfl | rfl | rfl <;> exact hb _ 200 (by decide)
  · rw [if_neg hi]
    have hfinal : ¬ (100 ≤ code ∧ code ≤ 199 ∧ code ≠ 101) := by
      rintro ⟨h1, h2, h3⟩
      rcases statusText_informational hv h1 h2 with h4 | h4 | h4 | h4
      · exact hi (Or.inl h4)
      · exact h3 h4
      · exact hi (Or.inr (Or.inl h4))
      · exact hi (Or.inr (Or.inr h4))
    have hw : ResponseWriter.writeHeader ⟨h, [], none, ""⟩ code = ⟨h, [], some code, ""⟩ := by
      simp only [ResponseWriter.writeHeader, if_neg hfinal]
    rw [hw]
    by_cases hn : code = 101 ∨ code = 204 ∨ code = 304
    · rw [if_pos hn]
      rcases hn with rfl | rfl | rfl <;> rfl
    · rw [if_neg hn]
      have hallowed : bodyAllowedForStatus code = true := by
        have h101 : ¬ (100 ≤ code ∧ code ≤ 199) := by
          rintro ⟨h1, h2⟩
          rcases statusText_informational hv h1 h2 with h4 | h4 | h4 | h4
          · exact hi (Or.inl h4)
          · exact hn (Or.inl h4)
          · exact hi (Or.inr (Or.inl h4))
          · exact hi (Or.inr (Or.inr h4))
        have h204 : ¬ code = 204 := fun h => hn (Or.inr (Or.inl h))
        have h304 : ¬ code = 304 := fun h => hn (Or.inr (Or.inr h))
        simp only [bodyAllowedForStatus, if_neg h101, if_neg h204, if_neg h304]
      have hw2 : (⟨h, [], some code, ""⟩ : ResponseWriter).write body =
          ⟨h, [], some code, "" ++ body⟩ := by
        simp only [ResponseWriter.write, ResponseWriter.writeHeader, hallowed, if_true]
      rw [hw2]
      exact hb [] code hallowed

theorem index_set (h : Header) (k key : String) (vs : List String) :
    Header.index (Header.set h k vs) key = if k = key then vs else Header.index h key := by
  induction h with
  | nil => simp [Header.set, Header.index]
  | cons e rest ih =>
    obtain ⟨k1, old⟩ := e
    by_cases h1 : k1 = k
    · subst h1
      by_cases h2 : k1 = key <;> simp [Header.set, Header.index, h2]
    · by_cases h2 : k1 = key
      · subst h2
        have h3 : ¬ k = k1 := fun h => h1 h.symm
        simp [Header.set, Header.index, h1, h3]
      · simp [Header.set, Header.index, h1, h2, ih]

theorem index_add (canon : String → String) (h : Header) (k v key : String) :
    Header.index (Header.add canon h k v) key =
      if canon k = key then Header.index h key ++ [v] else Header.index h key := by
  unfold Header.add
  rw [index_set]
  by_cases hk : canon k = key
  · subst hk; simp
  · simp [hk]

theorem index_addValues (canon : String → String) (k key : String) (vs : List String) :
    ∀ h : Header, Header.index (addValues canon h k vs) key =
      if canon k = key then Header.index h key ++ vs else Header.index h key := by
  induction vs with
  | nil => intro h; simp [addValues]
  | cons v rest ih =>
    intro h
    simp only [addValues]
    rw [ih, index_add]
    by_cases hk : canon k = key <;> simp [hk]

theorem index_mergeHeader (canon : String → String) (key : String) (dec : Header) :
    ∀ h : Header, Header.index (mergeHeader canon h dec) key =
      Header.index h key ++ addedValues canon dec key := by
  induction dec with
  | nil => intro h; simp [mergeHeader, addedValues]
  | cons e rest ih =>
    intro h
    obtain ⟨k, vs⟩ := e
    simp only [mergeHeader, addedValues]
    rw [ih, index_addValues]
    by_cases hk : canon k = key <;> simp [hk]

theorem keys_set (h : Header) (k key : String) (vs : List String)
    (hk : key ∈ h.map Prod.fst) : key ∈ (Header.set h k vs).map Prod.fst := by
  induction h with
  | nil => simp at hk
  | cons e rest ih =>
    obtain ⟨k1, old⟩ := e
    by_cases h1 : k1 = k
    · simpa [Header.set, h1] using hk
    · simp only [Header.set, h1, if_false, List.map_cons, List.mem_cons] at hk ⊢
      rcases hk with hk | hk
      · exact Or.inl hk
      · exact Or.inr (ih hk)

theorem keys_addValues (canon : String → String) (k key : String) (vs : List String) :
    ∀ h : Header, key ∈ h.map Prod.fst → key ∈ (addValues canon h k vs).map Prod.fst := by
  induction vs with
  | nil => intro h hk; exact hk
  | cons v rest ih =>
    intro h hk
    exact ih _ (keys_set h _ key _ hk)

theorem keys_mergeHeader (canon : String → String) (key : String) (dec : Header) :
    ∀ h : Header, key ∈ h.map Prod.fst → key ∈ (mergeHeader canon h dec).map Prod.fst := by
  induction dec with
  | nil => intro h hk; exact hk
  | cons e rest ih =>
    intro h hk
    obtain ⟨k, vs⟩ := e
    exact ih _ (keys_addValues canon k key vs h hk)

theorem addedValues_append (canon : String → String) (key : String) (l1 l2 : Header) :
    addedValues canon (l1 ++ l2) key = addedValues canon l1 key ++ addedValues canon l2 key := by
  induction l1 with
  | nil => simp [addedValues]
  | cons e rest ih =>
    obtain ⟨k, vs⟩ := e
    simp [addedValues, ih]

theorem addedValues_of_mem (canon : String → String) (dec : Header) (k : String)
    (vs : List String) (h : (k, vs) ∈ dec) :
    ∃ pre post, addedValues canon dec (canon k) = pre ++ vs ++ post := by
  obtain ⟨l1, l2, rfl⟩ := List.append_of_mem h
  refine ⟨addedValues canon l1 (canon k), addedValues canon l2 (canon k), ?_⟩
  rw [addedValues_append]
  simp [addedValues]

theorem addedValues_eq_nil (canon : String → String) (dec : Header) (key : String)
    (h : key ∉ dec.map (fun e => canon e.1)) : addedValues canon dec key = [] := by
  induction dec with
  | nil => rfl
  | cons e rest ih =>
    obtain ⟨k, vs⟩ := e
    simp only [List.map_cons, List.mem_cons, not_or] at h
    have h1 : ¬ canon k = key := fun hk => h.1 hk.symm
    simp [addedValues, h1, ih h.2]

theorem addedValues_of_nodup (canon : String → String) (dec : Header) (k : String)
    (vs : List String) (hnd : (dec.map (fun e => canon e.1)).Nodup) (h : (k, vs) ∈ dec) :
    addedValues canon dec (canon k) = vs := by
  induction dec with
  | nil => simp at h
  | cons e rest ih =>
    obtain ⟨k1, vs1⟩ := e
    simp only [List.map_cons, List.nodup_cons] at hnd
    rcases List.mem_cons.mp h with heq | hmem
    · injection heq with hk hv
      subst hk; subst hv
      simp [addedValues, addedValues_eq_nil canon rest (canon k) hnd.1]
    · have hne : ¬ canon k1 = canon k := by
        intro hk
        apply hnd.1
        rw [hk]
        exact List.mem_map.mpr ⟨(k, vs), hmem, rfl⟩
      simp [addedValues, hne, ih hnd.2 hmem]

/-- What the handler writes when the program it gets runs and its result decodes to `out`. -/
theorem handler_produces {P R : Type} (L : Lib P R) (cache : Cache P) (hdr : Header)
    (r : Request) {loc : String} {p : P} {out : SatelliteResult}
    (hloc : HasLocation L.canon r loc) (hob : Obtains L cache loc p)
    (hprod : Produces L p r out) :
    (handler L cache (ResponseWriter.fresh hdr) r).w =
      if statusText (if out.statusCode = 0 then StatusOK else out.statusCode) = "" then
        ⟨hdr, [], some 400, "error in satellite result: invalid status code: " ++
          toString (if out.statusCode = 0 then StatusOK else out.statusCode)⟩
      else
        (ResponseWriter.writeHeader ⟨mergeHeader L.canon hdr out.header, [], none, ""⟩
          (if out.statusCode = 0 then StatusOK else out.statusCode)).write out.body := by
  obtain ⟨cache1, tr, hh⟩ := handler_obtains L cache (ResponseWriter.fresh hdr) r hloc hob
  rw [hh, runSatellite_produces L _ r cache1 tr p hprod]
  generalize (if out.statusCode = 0 then StatusOK else out.statusCode) = code
  split_ifs
  · rw [badRequest_fresh]
  · rfl

/-- The status code the handler passes to `WriteHeader` has a status text when
the decoded one is zero or has one. -/
theorem written_code_valid {s : Int} (hs : s = 0 ∨ statusText s ≠ "") :
    statusText (if s = 0 then StatusOK else s) ≠ "" := by
  by_cases h0 : s = 0
  · simpa [h0] using statusText_ok
  · rcases hs with hs | hs
    · exact absurd hs h0
    · simpa [h0] using hs

theorem badRequest_spec (hdr : Header) (msg : String) (h : msg ≠ "") :
    (badRequest (ResponseWriter.fresh hdr) msg).status = some 400 ∧
    (badRequest (ResponseWriter.fresh hdr) msg).body ≠ "" := by
  rw [badRequest_fresh]
  exact ⟨rfl, h⟩

/-- Every call either fails in one of the listed ways or succeeds. -/
theorem fails_or_succeeds {P R : Type} (L : Lib P R) (cache : Cache P) (r : Request) :
    (∃ f, Fails L cache r f) ∨ Succeeds L cache r := by
  by_cases hloc : Header.get L.canon r.header "X-Satellite-Location" = ""
  · left
    refine ⟨.missingLocation, ?_⟩
    show NoLocation L.canon r
    unfold NoLocation Header.values
    unfold Header.get at hloc
    cases hv : Header.index r.header (L.canon "X-Satellite-Location") with
    | nil => exact Or.inl rfl
    | cons v rest =>
      rw [hv] at hloc
      exact Or.inr ⟨rest, by rw [show v = "" from hloc]⟩
  · have hl : HasLocation L.canon r (Header.get L.canon r.header "X-Satellite-Location") :=
      ⟨rfl, hloc⟩
    generalize Header.get L.canon r.header "X-Satellite-Location" = loc at hl
    have stage : ∀ p, Obtains L cache loc p → (∃ f, Fails L cache r f) ∨ Succeeds L cache r := by
      intro p hob
      cases hrun : L.run p (envOf r) with
      | error err => exact Or.inl ⟨.runError, loc, p, err, hl, hob, hrun⟩
      | ok raw =>
        cases hdec : L.decode raw with
        | error err => exact Or.inl ⟨.decodeError, loc, p, raw, err, hl, hob, hrun, hdec⟩
        | ok out =>
          by_cases hs : out.statusCode = 0 ∨ statusText out.statusCode ≠ ""
          · exact Or.inr ⟨loc, p, out, hl, hob, ⟨raw, hrun, hdec⟩, hs⟩
          · rw [not_or, not_not] at hs
            exact Or.inl ⟨.invalidStatus, loc, p, out, hl, hob, ⟨raw, hrun, hdec⟩, hs.1, hs.2⟩
    cases hpeek : Cache.peek cache loc with
    | some p => exact stage p (Or.inl hpeek)
    | none =>
      cases hget : L.httpGet loc with
      | error err => exact Or.inl ⟨.fetchError, loc, err, hl, hpeek, hget⟩
      | ok resp =>
        cases hlen : L.atoi (Header.get L.canon resp.header "Content-Length") with
        | error err => exact Or.inl ⟨.badContentLength, loc, resp, err, hl, hpeek, hget, hlen⟩
        | ok n =>
          by_cases hn : MaxSatteliteSize < n
          · exact Or.inl ⟨.tooLarge, loc, resp, n, hl, hpeek, hget, hlen, hn⟩
          · have hn2 : n ≤ MaxSatteliteSize := not_lt.mp hn
            cases hbody : resp.body with
            | error err =>
              exact Or.inl ⟨.bodyReadError, loc, resp, n, err, hl, hpeek, hget, hlen, hn2, hbody⟩
            | ok src =>
              by_cases hst : resp.statusCode = StatusOK
              · have hf : FetchOk L loc src := ⟨resp, n, hget, hlen, hn2, hbody, hst⟩
                cases hc : L.compile src with
                | error err => exact Or.inl ⟨.compileError, loc, src, err, hl, hpeek, hf, hc⟩
                | ok p => exact stage p (Or.inr ⟨hpeek, src, hf, hc⟩)
              · exact Or.inl
                  ⟨.upstreamStatus, loc, resp, n, src, hl, hpeek, hget, hlen, hn2, hbody, hst⟩

theorem remove_perm {P : Type} (c : Cache P) (k : String) (v : P)
    (h : Cache.peek c k = some v) : List.Perm ((k, v) :: Cache.remove c k) c := by
  induction c with
  | nil => simp [Cache.peek] at h
  | cons e rest ih =>
    obtain ⟨k1, v1⟩ := e
    by_cases hk : k1 = k
    · subst hk
      simp only [Cache.peek, if_true, Option.some.injEq] at h
      subst h
      simp [Cache.remove]
    · simp only [Cache.peek, hk, if_false] at h
      simp only [Cache.remove, hk, if_false]
      exact (List.Perm.swap (k1, v1) (k, v) _).trans (List.Perm.cons _ (ih h))

theorem add_miss {P : Type} (size : Nat) (c : Cache P) (k : String) (v : P)
    (h : Cache.peek c k = none) :
    Cache.add size c k v =
      if size < ((k, v) :: c).length then ((k, v) :: c).dropLast else (k, v) :: c := by
  simp [Cache.add, h]

theorem add_miss_room {P : Type} (size : Nat) (c : Cache P) (k : String) (v : P)
    (h : Cache.peek c k = none) (hlen : c.length < size) :
    Cache.add size c k v = (k, v) :: c := by
  rw [add_miss size c k v h, if_neg]
  simp only [List.length_cons]
  omega

theorem add_miss_full {P : Type} (size : Nat) (c : Cache P) (k : String) (v : P)
    (h : Cache.peek c k = none) (hsize : 0 < size) (hlen : size ≤ c.length) :
    Cache.add size c k v = (k, v) :: c.dropLast := by
  rw [add_miss size c k v h, if_pos]
  · cases c with
    | nil => simp at hlen; omega
    | cons e rest => rfl
  · simp only [List.length_cons]
    omega

theorem peek_add {P : Type} (size : Nat) (c : Cache P) (k : String) (v : P)
    (hsize : 0 < size) : Cache.peek (Cache.add size c k v) k = some v := by
  cases h : Cache.peek c k with
  | some old => simp [Cache.add, h, Cache.peek]
  | none =>
    by_cases hlen : c.length < size
    · rw [add_miss_room size c k v h hlen]
      simp [Cache.peek]
    · rw [add_miss_full size c k v h hsize (not_lt.mp hlen)]
      simp [Cache.peek]

/-- A call that misses the cache and does not load a program leaves the cache as it was. -/
theorem handler_miss_not_loads {P R : Type} (L : Lib P R) (cache : Cache P)
    (w : ResponseWriter) (r : Request) {loc : String} (hl : HasLocation L.canon r loc)
    (hmiss : Cache.peek cache loc = none) (hno : ¬ ∃ p, Loads L loc p) :
    (handler L cache w r).cache = cache := by
  obtain ⟨h1, h2⟩ := hl
  cases hget : L.httpGet loc with
  | error err => simp [handler, h1, h2, Cache.get, hmiss, hget]
  | ok resp =>
    cases hlen : L.atoi (Header.get L.canon resp.header "Content-Length") with
    | error err => simp [handler, h1, h2, Cache.get, hmiss, hget, hlen]
    | ok n =>
      by_cases hn : MaxSatteliteSize < n
      · simp [handler, h1, h2, Cache.get, hmiss, hget, hlen, hn]
      · cases hbody : resp.body with
        | error err => simp [handler, h1, h2, Cache.get, hmiss, hget, hlen, hn, hbody]
        | ok src =>
          by_cases hst : resp.statusCode = StatusOK
          · cases hc : L.compile src with
            | error err => simp [handler, h1, h2, Cache.get, hmiss, hget, hlen, hn, hbody, hst, hc]
            | ok p =>
              exact absurd ⟨p, src, ⟨resp, n, hget, hlen, not_lt.mp hn, hbody, hst⟩, hc⟩ hno
          · simp [handler, h1, h2, Cache.get, hmiss, hget, hlen, hn, hbody, hst]

/-- Either the request names no location, or it names a non-empty one. -/
theorem location_cases (canon : String → String) (r : Request) :
    NoLocation canon r ∨ ∃ loc, HasLocation canon r loc := by
  by_cases hloc : Header.get canon r.header "X-Satellite-Location" = ""
  · left
    unfold NoLocation Header.values
    unfold Header.get at hloc
    cases hv : Header.index r.header (canon "X-Satellite-Location") with
    | nil => exact Or.inl rfl
    | cons v rest =>
      rw [hv] at hloc
      exact Or.inr ⟨rest, by rw [show v = "" from hloc]⟩
  · exact Or.inr ⟨_, rfl, hloc⟩

theorem utf8ByteSize_replicate (n : Nat) :
    (String.mk (List.replicate n 'a')).utf8ByteSize = n := by
  induction n with
  | zero => rfl
  | succ k ih =>
    have h1 : (String.mk (List.replicate (k + 1) 'a')).utf8ByteSize =
        (String.mk (List.replicate k 'a')).utf8ByteSize + 1 := by
      simp only [List.replicate_succ, String.utf8ByteSize, String.utf8ByteSize.go]
      rfl
    rw [h1, ih]

theorem call_hasLocation {P R : Type} (c : Call P R) (h : c.loc ≠ "") :
    HasLocation c.lib.canon c.r c.loc := ⟨rfl, h⟩

/-- The calls and the response of lines 108-140 follow the run of the program. -/
theorem runSatellite_answers {P R : Type} (L : Lib P R) (w : ResponseWriter) (r : Request)
    (cache : Cache P) (tr : List (Event P R)) (p : P) :
    (runSatellite L w r cache tr p).trace = tr ++ runTrace L r p ∧
    AnswersFromRun L w r p (runSatellite L w r cache tr p).w := by
  cases h1 : L.run p (envOf r) with
  | error err =>
    refine ⟨by simp [runSatellite, runTrace, h1], ?_, ?_, ?_, ?_⟩
    · intro e he
      rw [h1] at he
      injection he with he
      subst he
      simp [runSatellite, h1]
    · intro raw e he
      rw [h1] at he
      exact absurd he (by simp)
    · intro raw out he
      rw [h1] at he
      exact absurd he (by simp)
    · intro raw out he
      rw [h1] at he
      exact absurd he (by simp)
  | ok raw =>
    cases h2 : L.decode raw with
    | error err =>
      refine ⟨by simp [runSatellite, runTrace, h1, h2], ?_, ?_, ?_, ?_⟩
      · intro e he
        rw [h1] at he
        exact absurd he (by simp)
      · intro raw1 e he hd
        rw [h1] at he
        injection he with he
        subst he
        rw [h2] at hd
        injection hd with hd
        subst hd
        simp [runSatellite, h1, h2]
      · intro raw1 out he hd
        rw [h1] at he
        injection he with he
        subst he
        rw [h2] at hd
        exact absurd hd (by simp)
      · intro raw1 out he hd
        rw [h1] at he
        injection he with he
        subst he
        rw [h2] at hd
        exact absurd hd (by simp)
    | ok out =>
      have hprod : Produces L p r out := ⟨raw, h1, h2⟩
      have htr : (runSatellite L w r cache tr p).trace = tr ++ runTrace L r p := by
        simp only [runSatellite, runTrace, h1, h2]
        split_ifs <;> simp
      refine ⟨htr, ?_, ?_, ?_, ?_⟩
      · intro e he
        rw [h1] at he
        exact absurd he (by simp)
      · intro raw1 e he hd
        rw [h1] at he
        injection he with he
        subst he
        rw [h2] at hd
        exact absurd hd (by simp)
      · intro raw1 out1 he hd h0 ht
        rw [h1] at he
        injection he with he
        subst he
        rw [h2] at hd
        injection hd with hd
        subst hd
        rw [runSatellite_produces L w r cache tr p hprod]
        simp [h0, ht]
      · intro raw1 out1 he hd hs
        rw [h1] at he
        injection he with he
        subst he
        rw [h2] at hd
        injection hd with hd
        subst hd
        rw [runSatellite_produces L w r cache tr p hprod, if_neg (written_code_valid hs)]
        rfl

/-- A call that hits the cache: no fetch, no compile, the cached program is run
and stays in the cache. -/
theorem handler_hit_step {P R : Type} (L : Lib P R) (cache : Cache P) (w : ResponseWriter)
    (r : Request) {loc : String} {p : P} (hl : HasLocation L.canon r loc)
    (hp : Cache.peek cache loc = some p) :
    (handler L cache w r).trace.countP Event.isFetch = 0 ∧
    (handler L cache w r).trace.countP Event.isCompile = 0 ∧
    Event.run p (envOf r) ∈ (handler L cache w r).trace ∧
    Cache.peek (handler L cache w r).cache loc = some p ∧
    (handler L cache w r).trace = Event.cacheGet loc :: runTrace L r p ∧
    AnswersFromRun L w r p (handler L cache w r).w := by
  rw [handler_hit L cache w r hl hp, runSatellite_cache]
  obtain ⟨ht, ha⟩ := runSatellite_answers L w r ((loc, p) :: Cache.remove cache loc)
    [Event.cacheGet loc] p
  refine ⟨?_, ?_, ?_, by simp [Cache.peek], ht, ha⟩ <;>
    rcases runSatellite_trace L w r ((loc, p) :: Cache.remove cache loc)
      [Event.cacheGet loc] p with ht | ⟨raw, ht⟩ <;>
    rw [ht] <;> simp [List.countP_cons, Event.isFetch, Event.isCompile]

/-- A call that misses the cache and loads a program: one fetch, one compile of
the fetched source, the new program is run and is in the cache afterwards. -/
theorem handler_load_step {P R : Type} (L : Lib P R) (cache : Cache P) (w : ResponseWriter)
    (r : Request) {loc src : String} {p : P} (hl : HasLocation L.canon r loc)
    (hp : Cache.peek cache loc = none) (hf : FetchOk L loc src) (hc : L.compile src = .ok p) :
    (handler L cache w r).trace.countP Event.isFetch = 1 ∧
    (handler L cache w r).trace.countP Event.isCompile = 1 ∧
    Event.compile src ∈ (handler L cache w r).trace ∧
    Event.run p (envOf r) ∈ (handler L cache w r).trace ∧
    Cache.peek (handler L cache w r).cache loc = some p ∧
    (handler L cache w r).trace =
      [Event.cacheGet loc, Event.httpGet loc, Event.readBody loc, Event.compile src,
        Event.cacheAdd loc p] ++ runTrace L r p ∧
    AnswersFromRun L w r p (handler L cache w r).w := by
  rw [handler_loads L cache w r hl hp hf hc, runSatellite_cache]
  obtain ⟨ht, ha⟩ := runSatellite_answers L w r (Cache.add MaxCacheSize cache loc p)
    [Event.cacheGet loc, Event.httpGet loc, Event.readBody loc, Event.compile src,
      Event.cacheAdd loc p] p
  refine ⟨?_, ?_, ?_, ?_, peek_add MaxCacheSize cache loc p (by decide), ht, ha⟩ <;>
    rcases runSatellite_trace L w r (Cache.add MaxCacheSize cache loc p)
      [Event.cacheGet loc, Event.httpGet loc, Event.readBody loc, Event.compile src,
        Event.cacheAdd loc p] p with ht | ⟨raw, ht⟩ <;>
    rw [ht] <;> simp [List.countP_cons, Event.isFetch, Event.isCompile]

/-- Calls for a location that is in the cache neither fetch nor compile, and each runs
the cached program and answers from that run. -/
theorem serve_hits {P R : Type} (loc : String) (p : P) (rest : List (Call P R)) :
    ∀ cache : Cache P, Cache.peek cache loc = some p →
      (∀ c ∈ rest, HasLocation c.lib.canon c.r loc) →
      (allEvents (serve cache rest)).countP Event.isFetch = 0 ∧
      (allEvents (serve cache rest)).countP Event.isCompile = 0 ∧
      List.Forall₂ (fun c o => Event.run p (envOf c.r) ∈ o.trace ∧
          o.trace = Event.cacheGet loc :: runTrace c.lib c.r p ∧
          AnswersFromRun c.lib c.w c.r p o.w) rest (serve cache rest) := by
  induction rest with
  | nil =>
    intro cache _ _
    exact ⟨rfl, rfl, List.Forall₂.nil⟩
  | cons c rest ih =>
    intro cache hp hreq
    obtain ⟨h1, h2, h3, h4, h5, h6⟩ :=
      handler_hit_step c.lib cache c.w c.r (hreq c (List.mem_cons_self _ _)) hp
    obtain ⟨i1, i2, i3⟩ := ih (handler c.lib cache c.w c.r).cache h4
      (fun d hd => hreq d (List.mem_cons_of_mem _ hd))
    refine ⟨?_, ?_, List.Forall₂.cons ⟨h3, h5, h6⟩ i3⟩
    · simp only [serve, allEvents, List.countP_append, h1, i1]
    · simp only [serve, allEvents, List.countP_append, h2, i2]

theorem peek_eq_none {P : Type} (c : Cache P) (k : String) (h : k ∉ c.map Prod.fst) :
    Cache.peek c k = none := by
  induction c with
  | nil => rfl
  | cons e rest ih =>
    obtain ⟨k1, v1⟩ := e
    simp only [List.map_cons, List.mem_cons, not_or] at h
    have h1 : ¬ k1 = k := fun hk => h.1 hk.symm
    simp [Cache.peek, h1, ih h.2]

theorem peek_of_mem_keys {P : Type} (c : Cache P) (k : String) (h : k ∈ c.map Prod.fst) :
    ∃ v, Cache.peek c k = some v := by
  induction c with
  | nil => simp at h
  | cons e rest ih =>
    obtain ⟨k1, v1⟩ := e
    by_cases h1 : k1 = k
    · exact ⟨v1, by simp [Cache.peek, h1]⟩
    · simp only [List.map_cons, List.mem_cons] at h
      rcases h with h | h
      · exact absurd h.symm h1
      · obtain ⟨v, hv⟩ := ih h
        exact ⟨v, by simp [Cache.peek, h1, hv]⟩

/-- Adding a new key to a cache within its capacity: the new entry in front,
cut to the capacity. -/
theorem add_miss_take {P : Type} (size : Nat) (c : Cache P) (k : String) (v : P)
    (h : Cache.peek c k = none) (hsize : 0 < size) (hlen : c.length ≤ size) :
    Cache.add size c k v = ((k, v) :: c).take size := by
  by_cases hlt : c.length < size
  · rw [add_miss_room size c k v h hlt, List.take_of_length_le]
    simp only [List.length_cons]
    omega
  · have heq : c.length = size := le_antisymm hlen (not_lt.mp hlt)
    rw [add_miss_full size c k v h hsize (not_lt.mp hlt)]
    obtain ⟨m, rfl⟩ : ∃ m, size = m + 1 := ⟨size - 1, by omega⟩
    rw [List.take_succ_cons, List.dropLast_eq_take, heq]
    rfl

theorem take_append_take {α : Type} (n : Nat) (a b : List α) :
    (a ++ b.take n).take n = (a ++ b).take n := by
  rw [List.take_append_eq_append_take, List.take_append_eq_append_take, List.take_take]
  congr 2
  omega

/-- The keys of the cache after calls for pairwise distinct new locations that
all load: the locations, latest first, then the old keys, cut to the capacity. -/
theorem serveCache_keys {P R : Type} (calls : List (Call P R)) :
    ∀ cache : Cache P,
      (∀ c ∈ calls, c.loc ≠ "" ∧ ∃ p, Loads c.lib c.loc p) →
      (calls.map Call.loc).Nodup →
      (∀ c ∈ calls, c.loc ∉ cache.map Prod.fst) →
      cache.length ≤ MaxCacheSize →
      (serveCache cache calls).map Prod.fst =
        ((calls.map Call.loc).reverse ++ cache.map Prod.fst).take MaxCacheSize := by
  induction calls with
  | nil =>
    intro cache _ _ _ hlen
    simp only [serveCache, List.map_nil, List.reverse_nil, List.nil_append]
    rw [List.take_of_length_le]
    simpa using hlen
  | cons c rest ih =>
    intro cache hok hnd hnew hlen
    obtain ⟨hne, p, src, hf, hc⟩ := hok c (List.mem_cons_self _ _)
    have hmiss : Cache.peek cache c.loc = none :=
      peek_eq_none cache c.loc (hnew c (List.mem_cons_self _ _))
    have hcache : (handler c.lib cache c.w c.r).cache =
        ((c.loc, p) :: cache).take MaxCacheSize := by
      rw [handler_loads c.lib cache c.w c.r (call_hasLocation c hne) hmiss hf hc,
        runSatellite_cache]
      exact add_miss_take MaxCacheSize cache c.loc p hmiss (by decide) hlen
    simp only [List.map_cons, List.nodup_cons] at hnd
    have hkeys : (((c.loc, p) :: cache).take MaxCacheSize).map Prod.fst =
        (c.loc :: cache.map Prod.fst).take MaxCacheSize := by
      rw [List.map_take]
      rfl
    have hnew2 : ∀ d ∈ rest, d.loc ∉ (((c.loc, p) :: cache).take MaxCacheSize).map Prod.fst := by
      intro d hd hmem
      rw [hkeys] at hmem
      rcases List.mem_cons.mp (List.mem_of_mem_take hmem) with h | h
      · exact hnd.1 (h ▸ List.mem_map.mpr ⟨d, hd, rfl⟩)
      · exact hnew d (List.mem_cons_of_mem _ hd) h
    have hlen2 : (((c.loc, p) :: cache).take MaxCacheSize).length ≤ MaxCacheSize := by
      rw [List.length_take]
      exact min_le_left _ _
    have step := ih (((c.loc, p) :: cache).take MaxCacheSize)
      (fun d hd => hok d (List.mem_cons_of_mem _ hd)) hnd.2 hnew2 hlen2
    simp only [serveCache]
    rw [hcache, step, hkeys, take_append_take]
    simp

/-- A call that misses the cache fetches. -/
theorem handler_miss_fetches {P R : Type} (L : Lib P R) (cache : Cache P) (w : ResponseWriter)
    (r : Request) {loc : String} (hl : HasLocation L.canon r loc)
    (hp : Cache.peek cache loc = none) :
    Event.httpGet loc ∈ (handler L cache w r).trace := by
  by_cases hld : ∃ p, Loads L loc p
  · obtain ⟨p, src, hf, hc⟩ := hld
    rw [handler_loads L cache w r hl hp hf hc]
    rcases runSatellite_trace L w r (Cache.add MaxCacheSize cache loc p)
      [Event.cacheGet loc, Event.httpGet loc, Event.readBody loc, Event.compile src,
        Event.cacheAdd loc p] p with ht | ⟨raw, ht⟩ <;> rw [ht] <;> simp
  · obtain ⟨h1, h2⟩ := hl
    cases hget : L.httpGet loc with
    | error err => simp [handler, h1, h2, Cache.get, hp, hget]
    | ok resp =>
      cases hlen : L.atoi (Header.get L.canon resp.header "Content-Length") with
      | error err => simp [handler, h1, h2, Cache.get, hp, hget, hlen]
      | ok n =>
        by_cases hn : MaxSatteliteSize < n
        · simp [handler, h1, h2, Cache.get, hp, hget, hlen, hn]
        · cases hbody : resp.body with
          | error err => simp [handler, h1, h2, Cache.get, hp, hget, hlen, hn, hbody]
          | ok src =>
            by_cases hst : resp.statusCode = StatusOK
            · cases hc : L.compile src with
              | error err => simp [handler, h1, h2, Cache.get, hp, hget, hlen, hn, hbody, hst, hc]
              | ok p =>
                exact absurd ⟨p, src, ⟨resp, n, hget, hlen, not_lt.mp hn, hbody, hst⟩, hc⟩ hld
            · simp [handler, h1, h2, Cache.get, hp, hget, hlen, hn, hbody, hst]

theorem exCall_loc (n : Nat) : (exCall n).loc = exLoc n := by
  have h1 : exCanon "X-Satellite-Location" = "X-Satellite-Location" := by decide
  have h2 : ¬ ("Accept" : String) = "X-Satellite-Location" := by decide
  show Header.get exCanon [("Accept", ["*/*"]), ("X-Satellite-Location", [exLoc n])]
    "X-Satellite-Location" = exLoc n
  simp [Header.get, Header.index, h1, h2]

theorem exLoc_ne_empty (n : Nat) : exLoc n ≠ "" := by
  intro h
  have h1 := congrArg String.data h
  have h2 := congrArg List.length h1
  simp [exLoc] at h2

theorem exLoc_injective : Function.Injective exLoc := by
  intro a b h
  have h1 := congrArg String.data h
  have h2 := congrArg List.length h1
  simpa [exLoc] using h2

theorem exCall_loads (n : Nat) : (exCall n).loc ≠ "" ∧
    ∃ p, Loads (exCall n).lib (exCall n).loc p := by
  rw [exCall_loc]
  have h1 : exUniformLib.atoi
      (Header.get exUniformLib.canon [("Content-Length", ["15"])] "Content-Length") = .ok 15 := by
    decide
  have h2 : exUniformLib.compile exPlainSrc = .ok exPlainRaw := by decide
  exact ⟨exLoc_ne_empty n, exPlainRaw, exPlainSrc,
    ⟨⟨200, [("Content-Length", ["15"])], .ok exPlainSrc⟩, 15, rfl, h1, by decide,
      rfl, rfl⟩, h2⟩

theorem exCalls_nodup : ((exCall 0 :: exLater).map Call.loc).Nodup := by
  have h : (exCall 0 :: exLater).map Call.loc = (List.range 1001).map exLoc := by
    rw [List.range_succ_eq_map, List.map_cons, List.map_cons, exCall_loc]
    simp only [exLater, List.map_map]
    congr 1
  rw [h]
  exact (List.nodup_range 1001).map exLoc_injective

theorem exCalls_load : ∀ c ∈ exCall 0 :: exLater, c.loc ≠ "" ∧ ∃ p, Loads c.lib c.loc p := by
  intro c hc
  rcases List.mem_cons.mp hc with rfl | hc
  · exact exCall_loads 0
  · obtain ⟨n, _, rfl⟩ := List.mem_map.mp hc
    exact exCall_loads (n + 1)

/-! ## Claims -/

/-- C5: a request whose X-Satellite-Location header is absent or empty is
answered with status 400 and exactly the body "no X-Satellite-Location header
found"; the handler makes no library call (no cache lookup, fetch, compile or
run) and the cache is unchanged. -/
theorem handler_missing_location {P R : Type} (L : Lib P R) (cache : Cache P) (hdr : Header)
    (r : Request) (h : NoLocation L.canon r) :
    (handler L cache (ResponseWriter.fresh hdr) r).w.status = some 400 ∧
    (handler L cache (ResponseWriter.fresh hdr) r).w.body =
      "no X-Satellite-Location header found" ∧
    (handler L cache (ResponseWriter.fresh hdr) r).trace = [] ∧
    (handler L cache (ResponseWriter.fresh hdr) r).cache = cache := by
  rw [handler_noLocation L cache _ r (get_eq_empty_of_noLocation h)]
  rw [badRequest_fresh]
  exact ⟨rfl, rfl, rfl, rfl⟩

theorem handler_missing_location_witness :
    NoLocation exLib.canon exBareRequest ∧
    (handler exLib [] (ResponseWriter.fresh []) exBareRequest).w.status = some 400 :=
  ⟨Or.inl (by decide),
    (handler_missing_location exLib [] [] exBareRequest (Or.inl (by decide))).1⟩

/-- C3: when the fetch response declares a Content-Length that parses to
n > 131072, the handler answers 400 with the body
"satellite too large: max 131072, got n"; it does not read the response body,
compiles nothing and adds nothing to the cache. -/
theorem handler_rejects_declared_oversize {P R : Type} (L : Lib P R) (cache : Cache P)
    (hdr : Header) (r : Request) (loc : String) (resp : FetchResponse) (n : Int)
    (hloc : HasLocation L.canon r loc) (hmiss : Cache.peek cache loc = none)
    (hget : L.httpGet loc = .ok resp)
    (hlen : L.atoi (Header.get L.canon resp.header "Content-Length") = .ok n)
    (hbig : 131072 < n) :
    (handler L cache (ResponseWriter.fresh hdr) r).w.status = some 400 ∧
    (handler L cache (ResponseWriter.fresh hdr) r).w.body =
      "satellite too large: max 131072, got " ++ toString n ∧
    (∀ e ∈ (handler L cache (ResponseWriter.fresh hdr) r).trace,
      e.isReadBody = false ∧ e.isCompile = false ∧ e.isCacheAdd = false) ∧
    (handler L cache (ResponseWriter.fresh hdr) r).cache = cache := by
  obtain ⟨h1, h2⟩ := hloc
  have hbig2 : MaxSatteliteSize < n := hbig
  have hmsg : "satellite too large: max " ++ toString MaxSatteliteSize ++ ", got "
      = "satellite too large: max 131072, got " := by decide
  have hh : handler L cache (ResponseWriter.fresh hdr) r =
      ⟨badRequest (ResponseWriter.fresh hdr)
        ("satellite too large: max 131072, got " ++ toString n), cache,
        [Event.cacheGet loc, Event.httpGet loc]⟩ := by
    simp [handler, h1, h2, Cache.get, hmiss, hget, hlen, hbig2, hmsg]
  rw [hh, badRequest_fresh]
  refine ⟨rfl, rfl, ?_, rfl⟩
  intro e he
  simp only [List.mem_cons, List.mem_singleton, List.not_mem_nil, or_false] at he
  rcases he with rfl | rfl <;> exact ⟨rfl, rfl, rfl⟩

theorem handler_rejects_declared_oversize_witness :
    (handler exLib [] (ResponseWriter.fresh []) (exRequest "http://sat/big")).w.body =
      "satellite too large: max 131072, got " ++ toString (131073 : Int) :=
  (handler_rejects_declared_oversize exLib [] [] (exRequest "http://sat/big") "http://sat/big"
    ⟨200, [("Content-Length", ["131073"])], .ok exOversized⟩ 131073
    ⟨by decide, by decide⟩ (by decide) rfl (by decide) (by decide)).2.1

/-- C2, refuted as stated: a result that decodes to the standard status 103 and
the body "early" is answered with the status 200, 103 going out as an
informational status line; a result that decodes to the standard status 204 and
the body "ok" is answered with the status 204 and no body; and the script with
the keys `status` and `body`, whose status key fills no field of the decoded
result, is answered with the status 200. -/
theorem written_status_and_body_differ :
    (statusText 103 ≠ "" ∧ exLib.decode exEarlyRaw = .ok ⟨103, [], "early"⟩ ∧
      (handler exLib [] (ResponseWriter.fresh []) (exRequest "http://sat/early")).w =
        ⟨[], [103], some 200, "early"⟩) ∧
    (statusText 204 ≠ "" ∧ exLib.decode exNoContentRaw = .ok ⟨204, [], "ok"⟩ ∧
      (handler exLib [] (ResponseWriter.fresh []) (exRequest "http://sat/no-content")).w =
        ⟨[], [], some 204, ""⟩) ∧
    (exLib.decode exLiteralRaw = .ok ⟨0, [], "ok"⟩ ∧
      (handler exLib [] (ResponseWriter.fresh []) (exRequest "http://sat/literal")).w =
        ⟨[], [], some 200, "ok"⟩) := by
  decide

/-- C2, amended: when the run succeeds and its result decodes to status code s,
headers h and body b, with s zero (absent) or a standard HTTP status, the status
of the response is s when s is not zero and not 100, 102 or 103, and 200 when s
is zero; 100, 102 and 103 go out as an informational status line and the status
of the response is 200.  The body is exactly b unless s is 101, 204 or 304,
for which the response has no body.  In particular a result that decodes to the
status code 201 and the body "ok" gives status 201 and body "ok", and a result
whose decoded status code is zero gives status 200 and the decoded body. -/
theorem handler_writes_status_and_body {P R : Type} (L : Lib P R) (cache : Cache P)
    (hdr : Header) (r : Request) (loc : String) (p : P) (out : SatelliteResult)
    (hloc : HasLocation L.canon r loc) (hob : Obtains L cache loc p)
    (hprod : Produces L p r out) :
    (out.statusCode = 0 ∨ statusText out.statusCode ≠ "" →
      (out.statusCode ≠ 100 → out.statusCode ≠ 102 → out.statusCode ≠ 103 →
        (handler L cache (ResponseWriter.fresh hdr) r).w.status =
          some (if out.statusCode = 0 then 200 else out.statusCode) ∧
        (handler L cache (ResponseWriter.fresh hdr) r).w.interim = []) ∧
      (out.statusCode = 100 ∨ out.statusCode = 102 ∨ out.statusCode = 103 →
        (handler L cache (ResponseWriter.fresh hdr) r).w.status = some 200 ∧
        (handler L cache (ResponseWriter.fresh hdr) r).w.interim = [out.statusCode]) ∧
      (out.statusCode ≠ 101 → out.statusCode ≠ 204 → out.statusCode ≠ 304 →
        (handler L cache (ResponseWriter.fresh hdr) r).w.body = out.body) ∧
      (out.statusCode = 101 ∨ out.statusCode = 204 ∨ out.statusCode = 304 →
        (handler L cache (ResponseWriter.fresh hdr) r).w.body = "")) ∧
    (out.statusCode = 201 → out.body = "ok" →
      (handler L cache (ResponseWriter.fresh hdr) r).w.status = some 201 ∧
      (handler L cache (ResponseWriter.fresh hdr) r).w.body = "ok") ∧
    (out.statusCode = 0 →
      (handler L cache (ResponseWriter.fresh hdr) r).w.status = some 200 ∧
      (handler L cache (ResponseWriter.fresh hdr) r).w.body = out.body) := by
  have key : ∀ hs : out.statusCode = 0 ∨ statusText out.statusCode ≠ "",
      (handler L cache (ResponseWriter.fresh hdr) r).w =
        if (if out.statusCode = 0 then StatusOK else out.statusCode) = 100 ∨
            (if out.statusCode = 0 then StatusOK else out.statusCode) = 102 ∨
            (if out.statusCode = 0 then StatusOK else out.statusCode) = 103 then
          ⟨mergeHeader L.canon hdr out.header,
            [if out.statusCode = 0 then StatusOK else out.statusCode], some 200, out.body⟩
        else if (if out.statusCode = 0 then StatusOK else out.statusCode) = 101 ∨
            (if out.statusCode = 0 then StatusOK else out.statusCode) = 204 ∨
            (if out.statusCode = 0 then StatusOK else out.statusCode) = 304 then
          ⟨mergeHeader L.canon hdr out.header, [],
            some (if out.statusCode = 0 then StatusOK else out.statusCode), ""⟩
        else
          ⟨mergeHeader L.canon hdr out.header, [],
            some (if out.statusCode = 0 then StatusOK else out.statusCode), out.body⟩ := by
    intro hs
    rw [handler_produces L cache hdr r hloc hob hprod, if_neg (written_code_valid hs)]
    exact respond_fresh _ _ _ (written_code_valid hs)
  have code0 : out.statusCode = 0 →
      (handler L cache (ResponseWriter.fresh hdr) r).w =
        ⟨mergeHeader L.canon hdr out.header, [], some 200, out.body⟩ := by
    intro h0
    rw [key (Or.inl h0)]
    simp [h0, StatusOK]
  have codeN : out.statusCode ≠ 0 → statusText out.statusCode ≠ "" →
      (handler L cache (ResponseWriter.fresh hdr) r).w =
        if out.statusCode = 100 ∨ out.statusCode = 102 ∨ out.statusCode = 103 then
          ⟨mergeHeader L.canon hdr out.header, [out.statusCode], some 200, out.body⟩
        else if out.statusCode = 101 ∨ out.statusCode = 204 ∨ out.statusCode = 304 then
          ⟨mergeHeader L.canon hdr out.header, [], some out.statusCode, ""⟩
        else ⟨mergeHeader L.canon hdr out.header, [], some out.statusCode, out.body⟩ := by
    intro h0 ht
    rw [key (Or.inr ht)]
    simp only [if_neg h0]
  refine ⟨fun hs => ?_, fun h201 hbody => ?_, fun h0 => ?_⟩
  · by_cases h0 : out.statusCode = 0
    · rw [code0 h0]
      refine ⟨fun _ _ _ => ⟨by simp [h0], rfl⟩, fun h => ?_, fun _ _ _ => rfl, fun h => ?_⟩
      · omega
      · omega
    · have ht : statusText out.statusCode ≠ "" := by
        rcases hs with hs | hs
        · exact absurd hs h0
        · exact hs
      rw [codeN h0 ht]
      refine ⟨fun h1 h2 h3 => ?_, fun h => ?_, fun h1 h2 h3 => ?_, fun h => ?_⟩
      · have hi : ¬ (out.statusCode = 100 ∨ out.statusCode = 102 ∨ out.statusCode = 103) := by
          omega
        rw [if_neg hi]
        split_ifs <;> simp [h0]
      · rw [if_pos h]
        exact ⟨rfl, rfl⟩
      · have hn : ¬ (out.statusCode = 101 ∨ out.statusCode = 204 ∨ out.statusCode = 304) := by
          omega
        rw [if_neg hn]
        split_ifs <;> rfl
      · have hi : ¬ (out.statusCode = 100 ∨ out.statusCode = 102 ∨ out.statusCode = 103) := by
          omega
        rw [if_neg hi, if_pos h]
  · have h0 : out.statusCode ≠ 0 := by omega
    have ht : statusText out.statusCode ≠ "" := by
      rw [h201]
      decide
    rw [codeN h0 ht]
    simp [h201, hbody]
  · rw [code0 h0]
    exact ⟨rfl, rfl⟩

theorem handler_writes_status_and_body_witness :
    (handler exLib [] (ResponseWriter.fresh []) (exRequest "http://sat/created")).w.status =
      some 201 ∧
    (handler exLib [] (ResponseWriter.fresh []) (exRequest "http://sat/created")).w.body = "ok" :=
  (handler_writes_status_and_body exLib [] [] (exRequest "http://sat/created")
    "http://sat/created" exCreatedRaw exCreated ⟨by decide, by decide⟩
    (Or.inr ⟨rfl, exCreatedSrc,
      ⟨⟨200, [("Content-Length", ["62"])], .ok exCreatedSrc⟩, 62, by decide, by decide,
        by decide, rfl, rfl⟩, by decide⟩)
    ⟨exCreatedRaw, rfl, by decide⟩).2.1 rfl rfl

/-- C4: when the decoded status code s is not zero and has no standard status
text (999 and every negative value are such codes), the handler answers 400 with
the body "error in satellite result: invalid status code: s"; the response
headers are the ones it started with and the body holds nothing else. -/
theorem handler_rejects_invalid_status {P R : Type} (L : Lib P R) (cache : Cache P)
    (hdr : Header) (r : Request) (loc : String) (p : P) (out : SatelliteResult)
    (hloc : HasLocation L.canon r loc) (hob : Obtains L cache loc p)
    (hprod : Produces L p r out) :
    (out.statusCode ≠ 0 → statusText out.statusCode = "" →
      (handler L cache (ResponseWriter.fresh hdr) r).w.status = some 400 ∧
      (handler L cache (ResponseWriter.fresh hdr) r).w.body =
        "error in satellite result: invalid status code: " ++ toString out.statusCode ∧
      (handler L cache (ResponseWriter.fresh hdr) r).w.header = hdr) ∧
    (out.statusCode = 999 ∨ out.statusCode < 0 →
      out.statusCode ≠ 0 ∧ statusText out.statusCode = "") := by
  refine ⟨fun h0 ht => ?_, fun hs => ?_⟩
  · rw [handler_produces L cache hdr r hloc hob hprod]
    simp [h0, ht]
  · rcases hs with hs | hs
    · rw [hs]
      exact ⟨by decide, by decide⟩
    · refine ⟨by omega, ?_⟩
      by_contra hne
      have := statusText_range hne
      omega

theorem handler_rejects_invalid_status_witness :
    (handler exLib [] (ResponseWriter.fresh []) (exRequest "http://sat/odd-status")).w.body =
      "error in satellite result: invalid status code: " ++ toString (999 : Int) :=
  ((handler_rejects_invalid_status exLib [] [] (exRequest "http://sat/odd-status")
    "http://sat/odd-status" exOddRaw exOdd ⟨by decide, by decide⟩
    (Or.inr ⟨rfl, exOddSrc,
      ⟨⟨200, [("Content-Length", ["65"])], .ok exOddSrc⟩, 65, by decide, by decide,
        by decide, rfl, rfl⟩, by decide⟩)
    ⟨exOddRaw, rfl, by decide⟩).1 (by decide) (by decide)).2.1

/-- C9: on a successful run with decoded headers h the handler merges h into the
response headers additively.  Under every key the values present before the
merge are still there, unchanged and in the same positions, followed by the
values h adds; no key is removed; and for every key k of h the values of h[k]
are appended, in their order, to the values of the header k (read as
`Header.Values` reads it, under the canonical form of k, where `Header.Add`
stores them), with nothing in between or after when no other key of h has the
same canonical form. -/
theorem handler_merges_headers {P R : Type} (L : Lib P R) (cache : Cache P)
    (hdr : Header) (r : Request) (loc : String) (p : P) (out : SatelliteResult)
    (hloc : HasLocation L.canon r loc) (hob : Obtains L cache loc p)
    (hprod : Produces L p r out)
    (hs : out.statusCode = 0 ∨ statusText out.statusCode ≠ "") :
    (∀ key, Header.index (handler L cache (ResponseWriter.fresh hdr) r).w.header key =
      Header.index hdr key ++ addedValues L.canon out.header key) ∧
    (∀ key, key ∈ hdr.map Prod.fst →
      key ∈ (handler L cache (ResponseWriter.fresh hdr) r).w.header.map Prod.fst) ∧
    (∀ k vs, (k, vs) ∈ out.header → ∃ pre post,
      Header.values L.canon (handler L cache (ResponseWriter.fresh hdr) r).w.header k =
        Header.values L.canon hdr k ++ (pre ++ vs ++ post)) ∧
    ((out.header.map (fun e => L.canon e.1)).Nodup → ∀ k vs, (k, vs) ∈ out.header →
      Header.values L.canon (handler L cache (ResponseWriter.fresh hdr) r).w.header k =
        Header.values L.canon hdr k ++ vs) := by
  have hw : (handler L cache (ResponseWriter.fresh hdr) r).w.header =
      mergeHeader L.canon hdr out.header := by
    rw [handler_produces L cache hdr r hloc hob hprod, if_neg (written_code_valid hs),
      write_header, writeHeader_header]
  rw [hw]
  refine ⟨fun key => index_mergeHeader L.canon key out.header hdr,
    fun key hk => keys_mergeHeader L.canon key out.header hdr hk,
    fun k vs hmem => ?_, fun hnd k vs hmem => ?_⟩
  · obtain ⟨pre, post, hadd⟩ := addedValues_of_mem L.canon out.header k vs hmem
    refine ⟨pre, post, ?_⟩
    unfold Header.values
    rw [index_mergeHeader, hadd]
  · unfold Header.values
    rw [index_mergeHeader, addedValues_of_nodup L.canon out.header k vs hnd hmem]

theorem handler_merges_headers_witness :
    Header.values exCanon
      (handler exLib [] (ResponseWriter.fresh [("X-Trace", ["0"])])
        (exRequest "http://sat/created")).w.header "x-trace" =
      Header.values exCanon [("X-Trace", ["0"])] "x-trace" ++ ["a", "b"] :=
  (handler_merges_headers exLib [] [("X-Trace", ["0"])] (exRequest "http://sat/created")
    "http://sat/created" exCreatedRaw exCreated ⟨by decide, by decide⟩
    (Or.inr ⟨rfl, exCreatedSrc,
      ⟨⟨200, [("Content-Length", ["62"])], .ok exCreatedSrc⟩, 62, by decide, by decide,
        by decide, rfl, rfl⟩, by decide⟩)
    ⟨exCreatedRaw, rfl, by decide⟩ (Or.inr (by decide))).2.2.2 (by decide) "x-trace" ["a", "b"]
    (by decide)

/-- C6: whichever step of the pipeline fails (missing location header, fetch
error, absent or unparseable Content-Length, declared size above the ceiling,
body read error, upstream status other than 200, compile error, run error,
decode error, unrecognised status code), the handler writes the status 400 and
a body that is not empty. -/
theorem handler_failure_is_bad_request {P R : Type} (L : Lib P R) (cache : Cache P)
    (hdr : Header) (r : Request) (f : Failure) (h : Fails L cache r f) :
    (handler L cache (ResponseWriter.fresh hdr) r).w.status = some 400 ∧
    (handler L cache (ResponseWriter.fresh hdr) r).w.body ≠ "" := by
  have run_stage : ∀ loc p, HasLocation L.canon r loc → Obtains L cache loc p →
      ∀ msg, msg ≠ "" →
      (∀ cache1 tr, (runSatellite L (ResponseWriter.fresh hdr) r cache1 tr p).w =
        badRequest (ResponseWriter.fresh hdr) msg) →
      (handler L cache (ResponseWriter.fresh hdr) r).w.status = some 400 ∧
      (handler L cache (ResponseWriter.fresh hdr) r).w.body ≠ "" := by
    intro loc p hl hob msg hmsg hrun
    obtain ⟨cache1, tr, hh⟩ := handler_obtains L cache (ResponseWriter.fresh hdr) r hl hob
    rw [hh, hrun]
    exact badRequest_spec hdr msg hmsg
  cases f with
  | missingLocation =>
    rw [handler_noLocation L cache _ r (get_eq_empty_of_noLocation h)]
    exact badRequest_spec hdr _ (by decide)
  | fetchError =>
    obtain ⟨loc, err, ⟨h1, h2⟩, hmiss, hget⟩ := h
    have hh : (handler L cache (ResponseWriter.fresh hdr) r).w =
        badRequest (ResponseWriter.fresh hdr) ("error fetching satellite: " ++ err) := by
      simp [handler, h1, h2, Cache.get, hmiss, hget]
    rw [hh]
    exact badRequest_spec hdr _ (append_ne_empty _ _ (by decide))
  | badContentLength =>
    obtain ⟨loc, resp, err, ⟨h1, h2⟩, hmiss, hget, hlen⟩ := h
    have hh : (handler L cache (ResponseWriter.fresh hdr) r).w =
        badRequest (ResponseWriter.fresh hdr)
          ("error reading satellite size (Content-Length header): " ++ err) := by
      simp [handler, h1, h2, Cache.get, hmiss, hget, hlen]
    rw [hh]
    exact badRequest_spec hdr _ (append_ne_empty _ _ (by decide))
  | tooLarge =>
    obtain ⟨loc, resp, n, ⟨h1, h2⟩, hmiss, hget, hlen, hn⟩ := h
    have hh : (handler L cache (ResponseWriter.fresh hdr) r).w =
        badRequest (ResponseWriter.fresh hdr)
          ("satellite too large: max " ++ toString MaxSatteliteSize ++ ", got " ++ toString n) := by
      simp [handler, h1, h2, Cache.get, hmiss, hget, hlen, hn]
    rw [hh]
    exact badRequest_spec hdr _
      (append_ne_empty _ _ (append_ne_empty _ _ (append_ne_empty _ _ (by decide))))
  | bodyReadError =>
    obtain ⟨loc, resp, n, err, ⟨h1, h2⟩, hmiss, hget, hlen, hn, hbody⟩ := h
    have hh : (handler L cache (ResponseWriter.fresh hdr) r).w =
        badRequest (ResponseWriter.fresh hdr) ("error reading satellite: " ++ err) := by
      simp [handler, h1, h2, Cache.get, hmiss, hget, hlen, not_lt.mpr hn, hbody]
    rw [hh]
    exact badRequest_spec hdr _ (append_ne_empty _ _ (by decide))
  | upstreamStatus =>
    obtain ⟨loc, resp, n, src, ⟨h1, h2⟩, hmiss, hget, hlen, hn, hbody, hst⟩ := h
    have hh : (handler L cache (ResponseWriter.fresh hdr) r).w =
        badRequest (ResponseWriter.fresh hdr)
          ("http error " ++ toString resp.statusCode ++ " fetching satellite: " ++ src) := by
      simp [handler, h1, h2, Cache.get, hmiss, hget, hlen, not_lt.mpr hn, hbody, hst]
    rw [hh]
    exact badRequest_spec hdr _
      (append_ne_empty _ _ (append_ne_empty _ _ (append_ne_empty _ _ (by decide))))
  | compileError =>
    obtain ⟨loc, src, err, ⟨h1, h2⟩, hmiss, ⟨resp, n, hget, hlen, hn, hbody, hst⟩, hc⟩ := h
    have hh : (handler L cache (ResponseWriter.fresh hdr) r).w =
        badRequest (ResponseWriter.fresh hdr) ("error compiling satellite: " ++ err) := by
      simp [handler, h1, h2, Cache.get, hmiss, hget, hlen, not_lt.mpr hn, hbody, hst, hc]
    rw [hh]
    exact badRequest_spec hdr _ (append_ne_empty _ _ (by decide))
  | runError =>
    obtain ⟨loc, p, err, hl, hob, hrun⟩ := h
    refine run_stage loc p hl hob ("error running satellite: " ++ err)
      (append_ne_empty _ _ (by decide)) ?_
    intro cache1 tr
    simp [runSatellite, hrun]
  | decodeError =>
    obtain ⟨loc, p, raw, err, hl, hob, hrun, hdec⟩ := h
    refine run_stage loc p hl hob ("error decoding satellite result: " ++ err)
      (append_ne_empty _ _ (by decide)) ?_
    intro cache1 tr
    simp [runSatellite, hrun, hdec]
  | invalidStatus =>
    obtain ⟨loc, p, out, hl, hob, hprod, h0, ht⟩ := h
    refine run_stage loc p hl hob
      ("error in satellite result: invalid status code: " ++ toString out.statusCode)
      (append_ne_empty _ _ (by decide)) ?_
    intro cache1 tr
    rw [runSatellite_produces L _ r cache1 tr p hprod]
    simp [h0, ht]

theorem handler_failure_is_bad_request_witness :
    (handler exLib [] (ResponseWriter.fresh []) (exRequest "http://sat/syntax")).w.status =
      some 400 :=
  (handler_failure_is_bad_request exLib [] [] (exRequest "http://sat/syntax") .compileError
    ⟨"http://sat/syntax", "\x7bBody: ", "unexpected token", ⟨by decide, by decide⟩, rfl,
      ⟨⟨200, [("Content-Length", ["7"])], .ok "\x7bBody: "⟩, 7, by decide, by decide,
        by decide, rfl, rfl⟩, by decide⟩).1

/-- C10: the set of cache entries after a call differs from the one before only
when the location was a miss and both the fetch and the compile succeeded; the
cache is then the old one with the location added in front, mapped to the
compiled program, less the oldest entry when the cache was full.  A missing
location, a failed fetch or a failed compile leave the cache as it was, a hit
only reorders it, and the insertion stands whatever the later run, decode or
status check do. -/
theorem handler_cache_effect {P R : Type} (L : Lib P R) (cache : Cache P)
    (w : ResponseWriter) (r : Request) :
    (¬ List.Perm (handler L cache w r).cache cache →
      ∃ loc p, HasLocation L.canon r loc ∧ Cache.peek cache loc = none ∧ Loads L loc p ∧
        (handler L cache w r).cache = Cache.add MaxCacheSize cache loc p) ∧
    (NoLocation L.canon r → (handler L cache w r).cache = cache) ∧
    (∀ loc p, HasLocation L.canon r loc → Cache.peek cache loc = some p →
      List.Perm (handler L cache w r).cache cache) ∧
    (∀ loc, HasLocation L.canon r loc → Cache.peek cache loc = none →
      (¬ ∃ p, Loads L loc p) → (handler L cache w r).cache = cache) ∧
    (∀ loc p, HasLocation L.canon r loc → Cache.peek cache loc = none → Loads L loc p →
      (handler L cache w r).cache = Cache.add MaxCacheSize cache loc p ∧
      Cache.peek (handler L cache w r).cache loc = some p ∧
      (cache.length < MaxCacheSize → (handler L cache w r).cache = (loc, p) :: cache) ∧
      (MaxCacheSize ≤ cache.length →
        (handler L cache w r).cache = (loc, p) :: cache.dropLast)) := by
  have hnone : NoLocation L.canon r → (handler L cache w r).cache = cache := by
    intro h
    rw [handler_noLocation L cache w r (get_eq_empty_of_noLocation h)]
  have hhit : ∀ loc p, HasLocation L.canon r loc → Cache.peek cache loc = some p →
      List.Perm (handler L cache w r).cache cache := by
    intro loc p hl hp
    rw [handler_hit L cache w r hl hp, runSatellite_cache]
    exact remove_perm cache loc p hp
  have hload : ∀ loc p, HasLocation L.canon r loc → Cache.peek cache loc = none →
      Loads L loc p → (handler L cache w r).cache = Cache.add MaxCacheSize cache loc p := by
    intro loc p hl hp ⟨src, hf, hc⟩
    rw [handler_loads L cache w r hl hp hf hc, runSatellite_cache]
  refine ⟨fun hdiff => ?_, hnone, hhit, fun loc hl hp hno => handler_miss_not_loads L cache w r hl hp hno,
    fun loc p hl hp hld => ?_⟩
  · rcases location_cases L.canon r with h | ⟨loc, hl⟩
    · exact absurd (by rw [hnone h]) hdiff
    · cases hp : Cache.peek cache loc with
      | some p => exact absurd (hhit loc p hl hp) hdiff
      | none =>
        by_cases hld : ∃ p, Loads L loc p
        · obtain ⟨p, hld⟩ := hld
          exact ⟨loc, p, hl, hp, hld, hload loc p hl hp hld⟩
        · exact absurd (by rw [handler_miss_not_loads L cache w r hl hp hld]) hdiff
  · rw [hload loc p hl hp hld]
    refine ⟨rfl, peek_add MaxCacheSize cache loc p (by decide), fun hlen => ?_, fun hlen => ?_⟩
    · exact add_miss_room MaxCacheSize cache loc p hp hlen
    · exact add_miss_full MaxCacheSize cache loc p hp (by decide) hlen

/-- Whenever the handler reaches expr.Compile with a source text, that text is
the body of a fetch response with status 200 whose declared Content-Length
parses to at most 131072. -/
theorem compile_source_is_fetched_body {P R : Type} (L : Lib P R) (cache : Cache P)
    (w : ResponseWriter) (r : Request) (src : String)
    (h : Event.compile src ∈ (handler L cache w r).trace) :
    ∃ loc resp n, HasLocation L.canon r loc ∧ Cache.peek cache loc = none ∧
      L.httpGet loc = .ok resp ∧
      L.atoi (Header.get L.canon resp.header "Content-Length") = .ok n ∧
      n ≤ 131072 ∧ resp.body = .ok src ∧ resp.statusCode = 200 := by
  rcases location_cases L.canon r with hno | ⟨loc, hl⟩
  · rw [handler_noLocation L cache w r (get_eq_empty_of_noLocation hno)] at h
    simp at h
  · cases hp : Cache.peek cache loc with
    | some p =>
      rw [handler_hit L cache w r hl hp] at h
      rcases runSatellite_trace L w r ((loc, p) :: Cache.remove cache loc)
        [Event.cacheGet loc] p with ht | ⟨raw, ht⟩ <;> rw [ht] at h <;> simp at h
    | none =>
      have h1 := hl.1
      have h2 := hl.2
      cases hget : L.httpGet loc with
      | error err => simp [handler, h1, h2, Cache.get, hp, hget] at h
      | ok resp =>
        cases hlen : L.atoi (Header.get L.canon resp.header "Content-Length") with
        | error err => simp [handler, h1, h2, Cache.get, hp, hget, hlen] at h
        | ok n =>
          by_cases hn : MaxSatteliteSize < n
          · simp [handler, h1, h2, Cache.get, hp, hget, hlen, hn] at h
          · cases hbody : resp.body with
            | error err => simp [handler, h1, h2, Cache.get, hp, hget, hlen, hn, hbody] at h
            | ok code =>
              by_cases hst : resp.statusCode = StatusOK
              · have hsrc : src = code := by
                  cases hc : L.compile code with
                  | error err =>
                    simpa [handler, h1, h2, Cache.get, hp, hget, hlen, hn, hbody, hst, hc] using h
                  | ok p =>
                    have hf : FetchOk L loc code := ⟨resp, n, hget, hlen, not_lt.mp hn, hbody, hst⟩
                    rw [handler_loads L cache w r hl hp hf hc] at h
                    rcases runSatellite_trace L w r (Cache.add MaxCacheSize cache loc p)
                      [Event.cacheGet loc, Event.httpGet loc, Event.readBody loc,
                        Event.compile code, Event.cacheAdd loc p] p with ht | ⟨raw, ht⟩ <;>
                      rw [ht] at h <;> simpa using h
                subst hsrc
                exact ⟨loc, resp, n, hl, hp, hget, hlen, not_lt.mp hn, hbody, hst⟩
              · simp [handler, h1, h2, Cache.get, hp, hget, hlen, hn, hbody, hst] at h

/-- The network of the examples cuts every body at the declared length. -/
theorem exLib_cutsBody : CutsBody exLib := by
  intro loc resp n src hget hlen hbody
  have hget2 : exGet loc = .ok resp := hget
  have hlen2 : exAtoi (Header.get exCanon resp.header "Content-Length") = .ok n := hlen
  have hsrcs : ∀ s ∈ [exCreatedSrc, exPlainSrc, exOddSrc, exEarlySrc, exNoContentSrc,
      exLiteralSrc, "\x7bBody: "],
      exAtoi (Header.get exCanon [("Content-Length", [toString s.utf8ByteSize])]
        "Content-Length") = .ok (s.utf8ByteSize : Int) := by decide
  unfold exGet at hget2
  split at hget2
  · injection hget2 with hresp
    subst hresp
    have hn : exAtoi (Header.get exCanon [("Content-Length", ["131073"])] "Content-Length") =
        .ok 131073 := by decide
    have hn2 : exAtoi (Header.get exCanon [("Content-Length", ["131073"])] "Content-Length") =
        .ok n := hlen2
    rw [hn] at hn2
    injection hn2 with hn2
    have hb : (Except.ok exOversized : Except String String) = .ok src := hbody
    injection hb with hb
    rw [← hb, ← hn2]
    unfold exOversized
    rw [utf8ByteSize_replicate]
    decide
  · split at hget2
    · rename_i s0 hs0
      injection hget2 with hresp
      subst hresp
      have hmem : s0 ∈ [exCreatedSrc, exPlainSrc, exOddSrc, exEarlySrc, exNoContentSrc,
          exLiteralSrc, "\x7bBody: "] := by
        unfold exSource at hs0
        split_ifs at hs0 <;> injection hs0 with hs0 <;> subst hs0 <;> simp
      have hn := hsrcs s0 hmem
      have hn2 : exAtoi (Header.get exCanon [("Content-Length", [toString s0.utf8ByteSize])]
          "Content-Length") = .ok n := hlen2
      rw [hn] at hn2
      injection hn2 with hn2
      have hb : (Except.ok s0 : Except String String) = .ok src := hbody
      injection hb with hb
      rw [← hb, ← hn2]
    · exact absurd hget2 (by simp)

/-- C8: for every fetch response that `http.Get` returns, which the transport has
cut at the declared length, the source text the handler hands to the compiler
is within the ceiling: whenever the handler reaches expr.Compile with a source
text, that text is at most 131072 bytes long. -/
theorem compile_source_within_ceiling {P R : Type} (L : Lib P R) (cache : Cache P)
    (w : ResponseWriter) (r : Request) (src : String) (hcut : CutsBody L)
    (h : Event.compile src ∈ (handler L cache w r).trace) :
    src.utf8ByteSize ≤ 131072 := by
  obtain ⟨loc, resp, n, _, _, hget, hlen, hn, hbody, _⟩ :=
    compile_source_is_fetched_body L cache w r src h
  have hle : (src.utf8ByteSize : Int) ≤ 131072 := le_trans (hcut loc resp n src hget hlen hbody) hn
  exact_mod_cast hle

theorem compile_source_within_ceiling_witness :
    Event.compile exCreatedSrc ∈
      (handler exLib [] (ResponseWriter.fresh []) (exRequest "http://sat/created")).trace ∧
    exCreatedSrc.utf8ByteSize ≤ 131072 :=
  ⟨by decide,
    compile_source_within_ceiling exLib [] (ResponseWriter.fresh [])
      (exRequest "http://sat/created") exCreatedSrc exLib_cutsBody (by decide)⟩

/-- C1: when fetching the location L succeeds (status 200, a declared length of
at most 131072) with the source S and S compiles to a program, then N ≥ 1
consecutive calls for L that start from a cache without L make exactly one
fetch and exactly one compile in all, both in the first call, which compiles S.
Every one of the N calls runs the program compiled from S: it applies
`expr.Run` to that program and the environment of its request, decodes the
result, makes no other library call after its cache lookup (after the load, for
the first call), and its response is the answer from that run. -/
theorem one_fetch_one_compile {P R : Type} (loc src : String) (p : P) (cache : Cache P)
    (first : Call P R) (rest : List (Call P R))
    (hmiss : Cache.peek cache loc = none)
    (hfetch : FetchOk first.lib loc src) (hcomp : first.lib.compile src = .ok p)
    (hreq : ∀ c ∈ first :: rest, HasLocation c.lib.canon c.r loc) :
    (allEvents (serve cache (first :: rest))).countP Event.isFetch = 1 ∧
    (allEvents (serve cache (first :: rest))).countP Event.isCompile = 1 ∧
    (handler first.lib cache first.w first.r).trace.countP Event.isFetch = 1 ∧
    (handler first.lib cache first.w first.r).trace.countP Event.isCompile = 1 ∧
    Event.compile src ∈ (handler first.lib cache first.w first.r).trace ∧
    List.Forall₂ (fun c o => Event.run p (envOf c.r) ∈ o.trace ∧
        AnswersFromRun c.lib c.w c.r p o.w)
      (first :: rest) (serve cache (first :: rest)) ∧
    (handler first.lib cache first.w first.r).trace =
      [Event.cacheGet loc, Event.httpGet loc, Event.readBody loc, Event.compile src,
        Event.cacheAdd loc p] ++ runTrace first.lib first.r p ∧
    List.Forall₂ (fun c o => o.trace = Event.cacheGet loc :: runTrace c.lib c.r p)
      rest (serve cache (first :: rest)).tail := by
  obtain ⟨h1, h2, h3, h4, h5, h6, h7⟩ := handler_load_step first.lib cache first.w first.r
    (hreq first (List.mem_cons_self _ _)) hmiss hfetch hcomp
  obtain ⟨i1, i2, i3⟩ := serve_hits loc p rest (handler first.lib cache first.w first.r).cache h5
    (fun d hd => hreq d (List.mem_cons_of_mem _ hd))
  refine ⟨?_, ?_, h1, h2, h3, List.Forall₂.cons ⟨h4, h7⟩ ?_, h6, ?_⟩
  · simp only [serve, allEvents, List.countP_append, h1, i1]
  · simp only [serve, allEvents, List.countP_append, h2, i2]
  · exact i3.imp (fun _ _ h => ⟨h.1, h.2.2⟩)
  · exact i3.imp (fun _ _ h => h.2.1)

theorem one_fetch_one_compile_witness :
    (allEvents (serve [] [⟨exLib, ResponseWriter.fresh [], exRequest "http://sat/created"⟩,
      ⟨exLib, ResponseWriter.fresh [], exRequest "http://sat/created"⟩,
      ⟨exLib, ResponseWriter.fresh [], exRequest "http://sat/created"⟩])).countP
        Event.isFetch = 1 :=
  (one_fetch_one_compile "http://sat/created" exCreatedSrc exCreatedRaw []
    ⟨exLib, ResponseWriter.fresh [], exRequest "http://sat/created"⟩
    [⟨exLib, ResponseWriter.fresh [], exRequest "http://sat/created"⟩,
      ⟨exLib, ResponseWriter.fresh [], exRequest "http://sat/created"⟩]
    rfl
    ⟨⟨200, [("Content-Length", ["62"])], .ok exCreatedSrc⟩, 62, by decide, by decide,
      by decide, rfl, rfl⟩
    (by decide)
    (by
      intro c hc
      simp only [List.mem_cons, List.mem_singleton, List.not_mem_nil, or_false, or_self] at hc
      subst hc
      exact ⟨by decide, by decide⟩)).1

/-- C7: starting from the empty cache of capacity 1000, after calls for 1001
pairwise distinct locations that each load and insert a program, the cache
holds at most 1000 entries; the first location is a miss, so that the next call
for it fetches again; and each of the 1000 later locations is a hit, so that
the next call for it does not fetch. -/
theorem lru_evicts_first_location {P R : Type} (first : Call P R) (later : List (Call P R))
    (hlen : later.length = 1000)
    (hnd : ((first :: later).map Call.loc).Nodup)
    (hok : ∀ c ∈ first :: later, c.loc ≠ "" ∧ ∃ p, Loads c.lib c.loc p) :
    (serveCache [] (first :: later)).length ≤ 1000 ∧
    Cache.peek (serveCache [] (first :: later)) first.loc = none ∧
    (∀ next : Call P R, next.loc = first.loc →
      Event.httpGet first.loc ∈
        (handler next.lib (serveCache [] (first :: later)) next.w next.r).trace) ∧
    (∀ c ∈ later, ∃ p, Cache.peek (serveCache [] (first :: later)) c.loc = some p) ∧
    (∀ c ∈ later, ∀ next : Call P R, next.loc = c.loc →
      (handler next.lib (serveCache [] (first :: later)) next.w next.r).trace.countP
        Event.isFetch = 0) := by
  have hkeys : (serveCache [] (first :: later)).map Prod.fst = (later.map Call.loc).reverse := by
    rw [serveCache_keys (first :: later) [] hok hnd (fun _ _ h => by simp at h) (by simp)]
    simp only [List.map_cons, List.reverse_cons, List.map_nil, List.append_nil]
    have hl : (later.map Call.loc).reverse.length = MaxCacheSize := by
      simp [hlen, MaxCacheSize]
    rw [List.take_append_eq_append_take, hl, Nat.sub_self, List.take_zero, List.append_nil,
      List.take_of_length_le (le_of_eq hl)]
  have hfirst : Cache.peek (serveCache [] (first :: later)) first.loc = none := by
    apply peek_eq_none
    rw [hkeys, List.mem_reverse]
    simp only [List.map_cons, List.nodup_cons] at hnd
    exact hnd.1
  have hhits : ∀ c ∈ later, ∃ p, Cache.peek (serveCache [] (first :: later)) c.loc = some p := by
    intro c hc
    apply peek_of_mem_keys
    rw [hkeys, List.mem_reverse]
    exact List.mem_map.mpr ⟨c, hc, rfl⟩
  refine ⟨?_, hfirst, fun next hnext => ?_, hhits, fun c hc next hnext => ?_⟩
  · have hl := congrArg List.length hkeys
    simp only [List.length_map, List.length_reverse] at hl
    omega
  · have hne : first.loc ≠ "" := (hok first (List.mem_cons_self _ _)).1
    exact handler_miss_fetches next.lib _ next.w next.r ⟨hnext, hne⟩ hfirst
  · obtain ⟨p, hp⟩ := hhits c hc
    have hne : c.loc ≠ "" := (hok c (List.mem_cons_of_mem _ hc)).1
    exact (handler_hit_step next.lib _ next.w next.r ⟨hnext, hne⟩ hp).1

theorem lru_evicts_first_location_witness :
    Cache.peek (serveCache [] (exCall 0 :: exLater)) (exCall 0).loc = none :=
  (lru_evicts_first_location (exCall 0) exLater (by simp [exLater]) exCalls_nodup
    exCalls_load).2.1

end Satellite
